import Mathlib

/-!
# ultimate-report-maker: the `/generate-excel` handler

A shallow embedding of `GenerateExcel` (src/main.go, lines 42-153) and the
properties its specification states about it.

The handler composes three external capabilities (gin, database/sql, xlsx).
Their outcomes on one run are collected in an environment `Env`; the handler
itself is a function from the environment and the initial file system to the
final file system and the ordered log of the calls it made.

Go strings are byte sequences, so they are modelled as `List UInt8`; literals
of the program are written `utf8 "..."`.
-/

namespace ReportMaker

/-! ## Go strings -/

/-- A Go `string`: an immutable sequence of bytes (not necessarily valid UTF-8). -/
abbrev GoString := List UInt8

/-- The bytes of a string literal of the program. -/
def utf8 (s : String) : GoString := s.toUTF8.data.toList

/-! ## Values delivered by `rows.Scan` into `*interface{}` -/

/-- A Go `float64`, carried by its IEEE-754 binary64 bit pattern. The handler
never computes with it: it only hands it to `SetFloatWithFormat`. -/
structure Float64 where
  bits : Nat
deriving DecidableEq, Repr

/-- A scanned value whose dynamic type is none of `int64`, `float64`, `[]byte`:
the values that reach the `default` branch of the type switch. `rendered`
stands for a value of any further dynamic type (time.Time, uint64, float32,
...) and carries its `%v` rendering. -/
inductive Other where
  | nil
  | bool (v : Bool)
  | string (v : GoString)
  | rendered (text : GoString)
deriving DecidableEq, Repr

/-- The dynamic type and value of one scanned `interface{}`: the three typed
cases of the switch at lines 116-123, and everything else. -/
inductive Value where
  | int64 (v : Int)
  | float64 (v : Float64)
  | bytes (v : List UInt8)
  | other (v : Other)
deriving DecidableEq, Repr

/-- The text `fmt.Sprintf("%v", v)` produces for a value reaching the `default` branch. -/
def sprintV : Other → GoString
  | .nil => utf8 "<nil>"
  | .bool true => utf8 "true"
  | .bool false => utf8 "false"
  | .string s => s
  | .rendered r => r

/-! ## The spreadsheet document (tealeg/xlsx), at the level of the calls made on it -/

/-- A cell, identified by the setter the handler called on it and its arguments. -/
inductive Cell where
  | SetString (s : GoString)
  | SetInt64 (v : Int)
  | SetFloatWithFormat (v : Float64) (format : GoString)
deriving DecidableEq, Repr

/-- A row: its cells in the order of the `AddCell` calls. -/
abbrev Row := List Cell

/-- A sheet: its name and its rows in the order of the `AddRow` calls. -/
structure Sheet where
  name : GoString
  rows : List Row
deriving DecidableEq, Repr

/-- A workbook (`xlsx.File`): its sheets in the order of the `AddSheet` calls. -/
abbrev XlsxFile := List Sheet

/-- The type switch of lines 116-126: the cell written for one scanned value. -/
def cellOf : Value → Cell
  | .int64 v => .SetInt64 v
  | .float64 v => .SetFloatWithFormat v (utf8 "0.00")
  | .bytes v => .SetString v
  | .other v => .SetString (sprintV v)

/-! ## The request body (lines 44-54) -/

/-- A parsed JSON text. Numbers keep their literal. -/
inductive JSON where
  | null
  | bool (b : Bool)
  | number (lit : GoString)
  | string (s : GoString)
  | array (items : List JSON)
  | object (members : List (GoString × JSON))

/-- The anonymous struct `requestBody` of lines 44-50. -/
structure RequestBody where
  DBUser : GoString
  DBPassword : GoString
  DBHost : GoString
  DBName : GoString
  Query : GoString
deriving DecidableEq, Repr

/-- The zero value of `requestBody`: `var requestBody struct{...}`. -/
def RequestBody.zero : RequestBody := ⟨[], [], [], [], []⟩

/-- The folding of a name by encoding/json (`foldName`): two names select the
same field exactly when they fold to the same bytes. Every rune is replaced by
the smallest rune of its Unicode simple-folding orbit: an ASCII letter by its
upper case, and the two runes outside ASCII whose orbit holds an ASCII letter,
U+017F (long s, bytes C5 BF) by `S` and U+212A (Kelvin sign, bytes E2 84 AA) by
`K`. Every other byte is kept: a rune outside ASCII other than these two folds
to a rune outside ASCII, so it never equals a byte of a folded ASCII tag. -/
def foldName : GoString → GoString
  | [] => []
  | 0xC5 :: 0xBF :: rest => 0x53 :: foldName rest
  | 0xE2 :: 0x84 :: 0xAA :: rest => 0x4B :: foldName rest
  | b :: rest => (if 0x61 ≤ b ∧ b ≤ 0x7A then b - 32 else b) :: foldName rest

/-- Whether an object key selects the struct field tagged `tag`: encoding/json
looks the key up by its exact name, then by its folded name. The five tags of
the struct fold to five different names, so that is equality of folded names. -/
def keyMatches (tag : String) (key : GoString) : Bool :=
  foldName key == foldName (utf8 tag)

/-- Decoding one JSON value into a Go `string` field: a JSON string is stored,
`null` leaves the field as it is, anything else is a type error (`none`). -/
def decodeString (old : GoString) : JSON → Option GoString
  | .string s => some s
  | .null => some old
  | _ => none

/-- Decoding one object member into the struct. The flag records whether a
type error was met; decoding goes on after one, as encoding/json does.
Members whose key matches no tag are ignored. -/
def decodeMember (st : RequestBody × Bool) (m : GoString × JSON) : RequestBody × Bool :=
  if keyMatches "db_user" m.1 then
    match decodeString st.1.DBUser m.2 with
    | some s => (⟨s, st.1.DBPassword, st.1.DBHost, st.1.DBName, st.1.Query⟩, st.2)
    | none => (st.1, false)
  else if keyMatches "db_password" m.1 then
    match decodeString st.1.DBPassword m.2 with
    | some s => (⟨st.1.DBUser, s, st.1.DBHost, st.1.DBName, st.1.Query⟩, st.2)
    | none => (st.1, false)
  else if keyMatches "db_host" m.1 then
    match decodeString st.1.DBHost m.2 with
    | some s => (⟨st.1.DBUser, st.1.DBPassword, s, st.1.DBName, st.1.Query⟩, st.2)
    | none => (st.1, false)
  else if keyMatches "db_name" m.1 then
    match decodeString st.1.DBName m.2 with
    | some s => (⟨st.1.DBUser, st.1.DBPassword, st.1.DBHost, s, st.1.Query⟩, st.2)
    | none => (st.1, false)
  else if keyMatches "query" m.1 then
    match decodeString st.1.Query m.2 with
    | some s => (⟨st.1.DBUser, st.1.DBPassword, st.1.DBHost, st.1.DBName, s⟩, st.2)
    | none => (st.1, false)
  else st

/-- The call `json.Decoder.Decode(&requestBody)` on a parsed body: an object is
decoded member by member, `null` leaves the zero value, any other JSON value
is a type error. -/
def unmarshal : JSON → Option RequestBody
  | .object members =>
    let st := members.foldl decodeMember (RequestBody.zero, true)
    if st.2 then some st.1 else none
  | .null => some RequestBody.zero
  | _ => none

/-- The validation gin runs after decoding: it enforces the `binding:"..."`
struct tags. The struct of lines 44-50 carries only `json:"..."` tags, so no
constraint is checked. -/
def validateStruct (_ : RequestBody) : Bool := true

/-- The call `c.BindJSON(&requestBody)` of line 51. The body is `none` when it
is not a JSON text at all (syntax error, empty body). The result is `none`
exactly when BindJSON returns an error. -/
def BindJSON (body : Option JSON) : Option RequestBody :=
  match body with
  | none => none
  | some j =>
    match unmarshal j with
    | none => none
    | some rb => if validateStruct rb then some rb else none

/-! ## path/filepath on Unix

`Clean` follows the lexical rules documented for `filepath.Clean`: the path is
read as elements separated by `/`; empty elements and `.` are dropped; `..`
removes the preceding real element, is dropped at the root of a rooted path,
and is kept at the front of a relative path; the empty result is `.`. -/

/-- The path separator `/`. -/
def Separator : UInt8 := 47

/-- The byte `.`. -/
def dot : UInt8 := 46

/-- The elements of a path: the maximal runs of bytes between separators. -/
def elements : GoString → List GoString
  | [] => [[]]
  | b :: bs =>
    if b = Separator then [] :: elements bs
    else
      match elements bs with
      | [] => [[b]]
      | e :: es => (b :: e) :: es

/-- One element read by the loop of `Clean`; `out` holds the elements written
so far, the most recent first. The cases are those of the loop's switch: an
empty element or `.` writes nothing; `..` backtracks over the last real
element when there is one, is dropped at the root of a rooted path, and is
written otherwise; any other element is written. -/
def cleanStep (rooted : Bool) (out : List GoString) (e : GoString) : List GoString :=
  if e = [] ∨ e = [dot] then out
  else if e = [dot, dot] then
    match out with
    | [] => if rooted then [] else [e]
    | top :: rest => if top = [dot, dot] then e :: out else rest
  else e :: out

/-- Elements joined by the separator. -/
def joinElements : List GoString → GoString
  | [] => []
  | [e] => e
  | e :: es => e ++ Separator :: joinElements es

/-- Whether a path starts with the separator. -/
def isRooted : GoString → Bool
  | [] => false
  | b :: _ => b == Separator

/-- The text of a cleaned path from its elements (most recent first). -/
def renderPath (rooted : Bool) (out : List GoString) : GoString :=
  if rooted then Separator :: joinElements out.reverse
  else if out = [] then [dot]
  else joinElements out.reverse

/-- The function `filepath.Clean`. -/
def Clean (path : GoString) : GoString :=
  if path = [] then [dot]
  else renderPath (isRooted path) ((elements path).foldl (cleanStep (isRooted path)) [])

/-- The call `filepath.Join(dir, name)` with two elements: empty leading
elements are skipped, the rest is joined with the separator and cleaned. -/
def Join (dir name : GoString) : GoString :=
  if dir ≠ [] then Clean (dir ++ Separator :: name)
  else if name ≠ [] then Clean name
  else []

/-- The part of a path up to and including its last separator (`path[:i+1]` in `filepath.Dir`). -/
def dirPart (path : GoString) : GoString :=
  (path.reverse.dropWhile (fun b => b != Separator)).reverse

/-- The function `filepath.Dir`. -/
def Dir (path : GoString) : GoString := Clean (dirPart path)

/-- The function `filepath.Base`. -/
def Base (path : GoString) : GoString :=
  if path = [] then [dot]
  else
    let stripped := (path.reverse.dropWhile (fun b => b == Separator)).reverse
    let last := (stripped.reverse.takeWhile (fun b => b != Separator)).reverse
    if last = [] then [Separator] else last

/-! ## The environment of one run -/

/-- What one iteration of `for rows.Next()` meets while `Next` returns true:
a row delivered by the driver, or a failure inside `rows.Scan`. -/
inductive Fetch where
  | row (vals : List Value)
  | scanError
deriving DecidableEq, Repr

/-- The result cursor `*sql.Rows` returned by `db.Query`. -/
structure Rows where
  /-- The result of `rows.Columns()`; `none` when it returns an error. -/
  columns : Option (List GoString)
  /-- The iterations for which `rows.Next()` returns true, in cursor order. -/
  fetches : List Fetch
  /-- Whether `rows.Next()` finally returns false because of an error
  (`rows.Err() != nil`) rather than because the result set is exhausted. -/
  nextError : Bool
deriving DecidableEq, Repr

/-- How `file.Save(path)` ends: `os.Create`, then writing the encoded
document, then closing the file. -/
inductive SaveResult where
  /-- The file was created and written in full; `Save` returns nil. -/
  | saved
  /-- `os.Create` failed: no file was created; `Save` returns the error. -/
  | createFailed
  /-- The file was created, then writing or closing it failed; `Save` returns the error. -/
  | writeFailed
deriving DecidableEq, Repr

/-- The content of a file of the file system. -/
inductive FileContent where
  /-- The complete encoding of a workbook. -/
  | xlsx (doc : XlsxFile)
  /-- What a failed write left behind. -/
  | truncated
  /-- As a response body only: the byte ranges of `whole` selected by the
  value `spec` of a Range header. -/
  | byteRanges (spec : GoString) (whole : FileContent)
deriving DecidableEq, Repr

/-- The file system: the files that exist, by path. -/
abbrev FS := List (GoString × FileContent)

/-- The content of the file at a path, if it exists. -/
def FS.read (fs : FS) (path : GoString) : Option FileContent :=
  (fs.find? (fun f => f.1 == path)).map (fun f => f.2)

/-- The file system without the file at a path. -/
def FS.remove (fs : FS) (path : GoString) : FS :=
  fs.filter (fun f => f.1 != path)

/-- The file system after creating or replacing the file at a path. -/
def FS.write (fs : FS) (path : GoString) (content : FileContent) : FS :=
  (path, content) :: fs.remove path

/-- The headers of the request that `c.File` (http.ServeFile) reads when the
method is POST, the only method the route is registered for; each is the
empty string when the request does not carry it. (`If-Modified-Since` and
`If-Range` are read for GET and HEAD only.) -/
structure Request where
  Range : GoString
  IfMatch : GoString
  IfUnmodifiedSince : GoString
  IfNoneMatch : GoString
deriving DecidableEq, Repr

/-- What http.ServeFile makes of a Range header, given the size of the file. -/
inductive RangeResult where
  /-- The ranges are well formed and lie in the file: they are served with 206. -/
  | satisfiable
  /-- The header is malformed or no range overlaps the file: 416. -/
  | notSatisfiable
  /-- The header is set aside (empty file, or ranges larger than the file): the
  whole file is served with 200. -/
  | ignored
deriving DecidableEq, Repr

/-- Everything outside the handler that one run depends on. -/
structure Env where
  /-- The request body as a JSON text; `none` when it is not one. -/
  body : Option JSON
  /-- Whether `sql.Open("mysql", dsn)` returns an error. -/
  openError : Bool
  /-- The result of `db.Query(query)`; `none` when it returns an error. -/
  queryResult : Option Rows
  /-- Whether `file.AddSheet("Sheet1")` returns an error. -/
  addSheetError : Bool
  /-- The result of `os.TempDir()`. -/
  tempDir : GoString
  /-- How `file.Save(tempFilePath)` ends. -/
  saveResult : SaveResult
  /-- The status `c.File` answers with when it cannot open or read the file
  although it exists; `none` when no such failure occurs. -/
  serveError : Option Nat
  /-- The request headers that `c.File` reads. -/
  request : Request
  /-- Whether the preconditions the request carries (`If-Match`,
  `If-Unmodified-Since`, `If-None-Match`) hold for the file served; read only
  when the request carries one. -/
  preconditionsHold : Bool
  /-- What becomes of the Range header of the request; read only when the
  request carries one. -/
  rangeResult : RangeResult
  /-- The headers `c.File` sets on its own when it serves the file
  (Last-Modified, Accept-Ranges, Content-Length, Content-Range); their values
  depend on the time and size of the file. -/
  fileHeaders : List (GoString × GoString)

/-! ## The handler -/

/-- The calls with an effect outside the handler, in the order it makes them. -/
inductive Event where
  /-- The call `c.JSON(code, gin.H{key: message})`. -/
  | cJSON (code : Nat) (key message : GoString)
  /-- The call `sql.Open(driverName, dsn)`. -/
  | sqlOpen (driverName dsn : GoString)
  /-- The call `db.Query(query)`. -/
  | dbQuery (query : GoString)
  /-- The deferred call `db.Close()`. -/
  | dbClose
  /-- The deferred call `rows.Close()`. -/
  | rowsClose
  /-- The call `file.Save(path)` on the workbook `doc`, with its result. -/
  | fileSave (path : GoString) (doc : XlsxFile) (result : SaveResult)
  /-- The call `c.Header(key, value)`. -/
  | cHeader (key value : GoString)
  /-- The call `c.File(path)`: the status answered and the file content served as body, if any. -/
  | cFile (path : GoString) (code : Nat) (served : Option FileContent)
  /-- The deferred call `os.Remove(path)`. -/
  | osRemove (path : GoString)
deriving DecidableEq, Repr

/-- The state threaded through the handler: the file system and the log of calls. -/
structure Ctx where
  fs : FS
  log : List Event
deriving DecidableEq, Repr

/-- Record a call. -/
def Ctx.emit (c : Ctx) (e : Event) : Ctx := ⟨c.fs, c.log ++ [e]⟩

/-- A call registered with `defer`. -/
inductive Deferred where
  | dbClose
  | rowsClose
  | osRemove (path : GoString)
deriving DecidableEq, Repr

/-- Run one deferred call. -/
def runDeferred (c : Ctx) : Deferred → Ctx
  | .dbClose => c.emit .dbClose
  | .rowsClose => c.emit .rowsClose
  | .osRemove path => ⟨c.fs.remove path, c.log ++ [.osRemove path]⟩

/-- Return from the handler: the deferred calls run, the most recently
registered first (the list holds them in that order). -/
def returnWith (deferred : List Deferred) (c : Ctx) : Ctx :=
  deferred.foldl runDeferred c

/-- The constant `http.StatusOK`. -/
def StatusOK : Nat := 200

/-- The constant `http.StatusBadRequest`. -/
def StatusBadRequest : Nat := 400

/-- The constant `http.StatusPartialContent`. -/
def StatusPartialContent : Nat := 206

/-- The constant `http.StatusNotFound`. -/
def StatusNotFound : Nat := 404

/-- The constant `http.StatusPreconditionFailed`. -/
def StatusPreconditionFailed : Nat := 412

/-- The constant `http.StatusRequestedRangeNotSatisfiable`. -/
def StatusRequestedRangeNotSatisfiable : Nat := 416

/-- The constant `http.StatusInternalServerError`. -/
def StatusInternalServerError : Nat := 500

/-- The call `c.JSON(code, gin.H{"error": message})`. -/
def Ctx.errorJSON (c : Ctx) (code : Nat) (message : String) : Ctx :=
  c.emit (.cJSON code (utf8 "error") (utf8 message))

/-- Lines 92-95: the header row, one text cell per column name. -/
def headerRow (columns : List GoString) : Row :=
  columns.foldl (fun row col => row ++ [Cell.SetString col]) []

/-- Lines 112-127: the row written for the scanned values of one result row. -/
def valueRow (values : List Value) : Row :=
  values.foldl (fun row val => row ++ [cellOf val]) []

/-- The call `rows.Scan(valuePtrs...)` with `n` destinations of type
`*interface{}`: database/sql rejects a destination count different from the
number of values of the row; otherwise every value is stored as it is. -/
def scan (n : Nat) : Fetch → Option (List Value)
  | .scanError => none
  | .row vals => if vals.length = n then some vals else none

/-- Lines 98-128: the loop over the cursor. Each iteration scans one row into
`len(columns)` values and appends one row to the sheet. `none` is the early
return on a scan error. The loop ends when `rows.Next()` returns false,
whatever the reason. -/
def scanRows (ncols : Nat) : List Fetch → List Row → Option (List Row)
  | [], sheetRows => some sheetRows
  | f :: rest, sheetRows =>
    match scan ncols f with
    | none => none
    | some values => scanRows ncols rest (sheetRows ++ [valueRow values])

/-- Whether the request carries a precondition that http.ServeFile evaluates on a POST. -/
def Request.hasPrecondition (r : Request) : Bool :=
  r.IfMatch != [] || r.IfUnmodifiedSince != [] || r.IfNoneMatch != []

/-- The call `c.File(path)`, which is `http.ServeFile(c.Writer, c.Request, path)`.
A file that cannot be opened is answered with an error status (404 when it
does not exist). Otherwise the preconditions of the request are evaluated
first: when one fails the answer is 412 without the file. Then a Range header
is honoured: 206 with the selected bytes, 416 without the file, or set aside.
A request carrying neither is answered 200 with the whole file. The headers
`c.File` adds on its own are not calls of the handler and are not logged;
they are `Env.fileHeaders`. -/
def serveFile (env : Env) (fs : FS) (path : GoString) : Event :=
  match env.serveError with
  | some code => .cFile path code none
  | none =>
    match fs.read path with
    | none => .cFile path StatusNotFound none
    | some content =>
      if env.request.hasPrecondition && !env.preconditionsHold then
        .cFile path StatusPreconditionFailed none
      else if env.request.Range ≠ [] then
        match env.rangeResult with
        | .satisfiable =>
          .cFile path StatusPartialContent (some (.byteRanges env.request.Range content))
        | .notSatisfiable => .cFile path StatusRequestedRangeNotSatisfiable none
        | .ignored => .cFile path StatusOK (some content)
      else .cFile path StatusOK (some content)

/-- The file system after `file.Save(path)` on `doc` ended with `result`. -/
def saveEffect (fs : FS) (path : GoString) (doc : XlsxFile) : SaveResult → FS
  | .saved => fs.write path (.xlsx doc)
  | .createFailed => fs
  | .writeFailed => fs.write path .truncated

/-- Line 57: `fmt.Sprintf("%s:%s@tcp(%s)/%s", DBUser, DBPassword, DBHost, DBName)`. -/
def dsnOf (requestBody : RequestBody) : GoString :=
  requestBody.DBUser ++ utf8 ":" ++ requestBody.DBPassword ++ utf8 "@tcp(" ++
    requestBody.DBHost ++ utf8 ")/" ++ requestBody.DBName

/-- Line 131: `fmt.Sprintf("result_%s.xlsx", DBName)`. -/
def excelFileName (dbName : GoString) : GoString :=
  utf8 "result_" ++ dbName ++ utf8 ".xlsx"

/-- Lines 134-135: `filepath.Join(os.TempDir(), excelFileName)`. -/
def tempFilePath (tempDir dbName : GoString) : GoString :=
  Join tempDir (excelFileName dbName)

/-- Lines 130-152, reached when the cursor loop has ended: save, serve, clean up. -/
def saveAndServe (env : Env) (requestBody : RequestBody) (sheetRows : List Row)
    (deferred : List Deferred) (c : Ctx) : Ctx :=
  let name := excelFileName requestBody.DBName
  let path := tempFilePath env.tempDir requestBody.DBName
  let doc : XlsxFile := [⟨utf8 "Sheet1", sheetRows⟩]
  let c : Ctx := ⟨saveEffect c.fs path doc env.saveResult,
    c.log ++ [.fileSave path doc env.saveResult]⟩
  if env.saveResult ≠ .saved then
    returnWith deferred (c.errorJSON StatusInternalServerError "Failed to save Excel file")
  else
    let c := c.emit (.cHeader (utf8 "Content-Description") (utf8 "File Transfer"))
    let c := c.emit (.cHeader (utf8 "Content-Disposition") (utf8 "attachment; filename=" ++ name))
    let c := c.emit (.cHeader (utf8 "Content-Type") (utf8 "application/octet-stream"))
    let c := c.emit (serveFile env c.fs path)
    returnWith (.osRemove path :: deferred) c

/-- Lines 75-128, reached when the query has succeeded: build the sheet. -/
def buildSheet (env : Env) (requestBody : RequestBody) (rows : Rows)
    (deferred : List Deferred) (c : Ctx) : Ctx :=
  if env.addSheetError then
    returnWith deferred (c.errorJSON StatusInternalServerError "Failed to create Excel sheet")
  else
    match rows.columns with
    | none =>
      returnWith deferred (c.errorJSON StatusInternalServerError "Failed to fetch column names")
    | some columns =>
      match scanRows columns.length rows.fetches [headerRow columns] with
      | none =>
        returnWith deferred (c.errorJSON StatusInternalServerError "Failed to scan row values")
      | some sheetRows => saveAndServe env requestBody sheetRows deferred c

/-- The handler `GenerateExcel` (lines 42-153), run in environment `env` on the
file system `fs`. -/
def GenerateExcel (env : Env) (fs : FS) : Ctx :=
  let c : Ctx := ⟨fs, []⟩
  match BindJSON env.body with
  | none => returnWith [] (c.errorJSON StatusBadRequest "Invalid JSON data")
  | some requestBody =>
    let c := c.emit (.sqlOpen (utf8 "mysql") (dsnOf requestBody))
    if env.openError then
      returnWith [] (c.errorJSON StatusInternalServerError "Failed to connect to the database")
    else
      let c := c.emit (.dbQuery requestBody.Query)
      match env.queryResult with
      | none =>
        returnWith [.dbClose]
          (c.errorJSON StatusInternalServerError "Failed to execute the query")
      | some rows => buildSheet env requestBody rows [.rowsClose, .dbClose] c

/-! ## The example of the specification

The request of the example, against a table `items` with the rows `(1, 9.5)`
and `(2, 10)`, the driver delivering `id` as int64 and `price` as float64. -/

/-- The request body of the example. -/
def exampleBody : JSON :=
  .object [(utf8 "db_user", .string (utf8 "u")), (utf8 "db_password", .string (utf8 "p")),
    (utf8 "db_host", .string (utf8 "localhost")), (utf8 "db_name", .string (utf8 "shop")),
    (utf8 "query", .string (utf8 "SELECT id, price FROM items"))]

/-- The struct the example body binds to. -/
def exampleRequest : RequestBody :=
  ⟨utf8 "u", utf8 "p", utf8 "localhost", utf8 "shop", utf8 "SELECT id, price FROM items"⟩

/-- The float64 value 9.5. -/
def f9_5 : Float64 := ⟨0x4023000000000000⟩

/-- The float64 value 10. -/
def f10 : Float64 := ⟨0x4024000000000000⟩

/-- The cursor of the example. -/
def exampleRows : Rows :=
  ⟨some [utf8 "id", utf8 "price"],
   [.row [.int64 1, .float64 f9_5], .row [.int64 2, .float64 f10]], false⟩

/-- A request that carries no Range header and no precondition. -/
def plainRequest : Request := ⟨[], [], [], []⟩

/-- Headers `c.File` adds when it serves the example file. -/
def exampleFileHeaders : List (GoString × GoString) :=
  [(utf8 "Last-Modified", utf8 "Sun, 01 Nov 2026 00:00:00 GMT"),
   (utf8 "Accept-Ranges", utf8 "bytes"), (utf8 "Content-Length", utf8 "6144")]

/-- The environment of the example: every stage succeeds, the temporary
directory is `/tmp`, and the request carries no Range header and no precondition. -/
def exampleEnv : Env :=
  ⟨some exampleBody, false, some exampleRows, false, utf8 "/tmp", .saved, none,
   plainRequest, true, .ignored, exampleFileHeaders⟩

/-- The workbook of the example. -/
def exampleDoc : XlsxFile :=
  [⟨utf8 "Sheet1",
    [[.SetString (utf8 "id"), .SetString (utf8 "price")],
     [.SetInt64 1, .SetFloatWithFormat f9_5 (utf8 "0.00")],
     [.SetInt64 2, .SetFloatWithFormat f10 (utf8 "0.00")]]⟩]

/-! ## Vocabulary of the statements -/

/-- The values of a fetched row (none for a failed scan). -/
def fetchedValues : Fetch → List Value
  | .row vals => vals
  | .scanError => []

/-- Whether an object key selects one of the five fields of the request body. -/
def isField (key : GoString) : Bool :=
  keyMatches "db_user" key || keyMatches "db_password" key || keyMatches "db_host" key ||
    keyMatches "db_name" key || keyMatches "query" key

/-- Whether the field tagged `tag` is absent from the members of an object. -/
def absent (tag : String) (members : List (GoString × JSON)) : Prop :=
  ∀ m ∈ members, keyMatches tag m.1 = false

/-- What every call of a run looks like once the request is bound: an error
answer has status 500, and every file operation is on the path `tempPath`. -/
def Event.expected (tempPath : GoString) : Event → Prop
  | .cJSON code _ _ => code = 500
  | .fileSave path _ _ => path = tempPath
  | .cFile path _ _ => path = tempPath
  | .osRemove path => path = tempPath
  | _ => True

/-- Whether a call releases a database resource. -/
def Event.isClose : Event → Bool
  | .dbClose => true
  | .rowsClose => true
  | _ => false

/-! ### The data source name, as the MySQL driver reads it -/

/-- A string split at the last occurrence of a byte, which is left out. -/
def splitAtLast (c : UInt8) (s : GoString) : Option (GoString × GoString) :=
  if c ∈ s then
    some ((s.reverse.dropWhile (fun b => b != c)).tail.reverse,
          (s.reverse.takeWhile (fun b => b != c)).reverse)
  else none

/-- A string split at the first occurrence of a byte, which is left out. -/
def splitAtFirst (c : UInt8) (s : GoString) : Option (GoString × GoString) :=
  if c ∈ s then some (s.takeWhile (fun b => b != c), (s.dropWhile (fun b => b != c)).tail)
  else none

/-- The parts of a data source name `[user[:password]@][net[(addr)]]/dbname[?params]`. -/
structure Config where
  User : GoString
  Passwd : GoString
  Net : GoString
  Addr : GoString
  DBName : GoString
  Params : GoString
deriving DecidableEq, Repr

/-- The first part of `ParseDSN` of go-sql-driver/mysql, which `sql.Open` and
`db.Query` rely on: the name is split at its last `/`; in what precedes, the
user and password end at the last `@` and are separated by the first `:`; the
address is what follows the first `(` after that, and must end with `)` right
before the last `/`; the database name runs to the first `?`. The result is
`none` where `ParseDSN` returns an error for the shape of the name. What
`ParseDSN` does next (reading the parameters, unescaping the database name,
filling in defaults) is not part of this function. -/
def splitDSN (dsn : GoString) : Option Config :=
  if dsn = [] then some ⟨[], [], [], [], [], []⟩
  else
    match splitAtLast 0x2F dsn with
    | none => none
    | some (left, right) =>
      let userAndNet : GoString × GoString :=
        match splitAtLast 0x40 left with
        | some (u, n) => (u, n)
        | none => ([], left)
      let userAndPasswd : GoString × GoString :=
        match splitAtFirst 0x3A userAndNet.1 with
        | some (u, pw) => (u, pw)
        | none => (userAndNet.1, [])
      let nameAndParams : GoString × GoString :=
        match splitAtFirst 0x3F right with
        | some (n, ps) => (n, ps)
        | none => (right, [])
      match splitAtFirst 0x28 userAndNet.2 with
      | none =>
        some ⟨userAndPasswd.1, userAndPasswd.2, userAndNet.2, [], nameAndParams.1,
          nameAndParams.2⟩
      | some (net, rest) =>
        if rest.getLast? = some 0x29 then
          some ⟨userAndPasswd.1, userAndPasswd.2, net, rest.dropLast, nameAndParams.1,
            nameAndParams.2⟩
        else none

/-- A database name that holds separators and `..` elements and still gives a
data source name the driver accepts: it ends with `@tcp(addr)/name`, so the
driver reads the server address and the database from the name itself and
takes what precedes the last `@` as user and password (here the user `u` with
the password `p@tcp(localhost)/a/../../home/b`, an account that the owner of
the server named in the request can set up). -/
def escapingName : GoString := utf8 "a/../../home/b@tcp(db.example.com:3306)/shop"

/-- The example request with the database name `escapingName`. -/
def bodyEscaping : JSON :=
  .object [(utf8 "db_user", .string (utf8 "u")), (utf8 "db_password", .string (utf8 "p")),
    (utf8 "db_host", .string (utf8 "localhost")), (utf8 "db_name", .string escapingName),
    (utf8 "query", .string (utf8 "SELECT id, price FROM items"))]

/-- An environment for `bodyEscaping`: the server at `db.example.com` accepts
the connection and answers the query as in the example; `file.Save` ends with
`result` (`createFailed` when the directory of the path does not exist). -/
def envEscaping (result : SaveResult) : Env :=
  ⟨some bodyEscaping, false, some exampleRows, false, utf8 "/tmp", result, none,
   plainRequest, true, .ignored, exampleFileHeaders⟩

/-- The example request without its `query` member. -/
def bodyWithoutQuery : JSON :=
  .object [(utf8 "db_user", .string (utf8 "u")), (utf8 "db_password", .string (utf8 "p")),
    (utf8 "db_host", .string (utf8 "localhost")), (utf8 "db_name", .string (utf8 "shop"))]

/-- An environment for `bodyWithoutQuery`: the connection opens, the server rejects the query. -/
def envWithoutQuery : Env :=
  ⟨some bodyWithoutQuery, false, none, false, utf8 "/tmp", .saved, none,
   plainRequest, true, .ignored, exampleFileHeaders⟩

/-- The example, except that `file.Save` fails after having created the file. -/
def envWriteFails : Env :=
  ⟨some exampleBody, false, some exampleRows, false, utf8 "/tmp", .writeFailed, none,
   plainRequest, true, .ignored, exampleFileHeaders⟩

/-- The example, except that the cursor fails after its first row: `rows.Next()`
returns true once, then false with `rows.Err() != nil`. -/
def rowsCutShort : Rows :=
  ⟨some [utf8 "id", utf8 "price"], [.row [.int64 1, .float64 f9_5]], true⟩

/-- The environment of the example with the cursor `rowsCutShort`. -/
def envCutShort : Env :=
  ⟨some exampleBody, false, some rowsCutShort, false, utf8 "/tmp", .saved, none,
   plainRequest, true, .ignored, exampleFileHeaders⟩

/-- The body `{"db_user": 5}`: JSON, but a number where a string is expected. -/
def bodyWithNumber : JSON := .object [(utf8 "db_user", .number (utf8 "5"))]

/-- An environment for `bodyWithNumber` in which every later stage would succeed. -/
def envWithNumber : Env :=
  ⟨some bodyWithNumber, false, some exampleRows, false, utf8 "/tmp", .saved, none,
   plainRequest, true, .ignored, exampleFileHeaders⟩

/-- The invariant of the elements written by `Clean` (most recent first):
each is non-empty, free of separators and not `.`, and a `..` occurs only in a
relative path, at the bottom or on top of another `..`. -/
def CleanOut (rooted : Bool) : List GoString → Prop
  | [] => True
  | e :: rest =>
    CleanOut rooted rest ∧ e ≠ [] ∧ e ≠ [dot] ∧ Separator ∉ e ∧
      (e = [dot, dot] → rooted = false ∧ ∀ top ∈ rest.head?, top = [dot, dot])

/-! ## Auxiliary facts -/

theorem foldl_snoc_eq_map {α β : Type} (f : α → β) (xs : List α) (acc : List β) :
    xs.foldl (fun row x => row ++ [f x]) acc = acc ++ xs.map f := by
  induction xs generalizing acc with
  | nil => simp
  | cons x xs ih => simp [ih]

theorem headerRow_eq_map (columns : List GoString) :
    headerRow columns = columns.map Cell.SetString := by
  simp [headerRow, foldl_snoc_eq_map]

theorem valueRow_eq_map (values : List Value) :
    valueRow values = values.map cellOf := by
  simp [valueRow, foldl_snoc_eq_map]

theorem scan_eq_some {n : Nat} {f : Fetch} {vals : List Value} (h : scan n f = some vals) :
    f = .row vals ∧ vals.length = n := by
  cases f with
  | scanError => simp [scan] at h
  | row v =>
    by_cases hv : v.length = n
    · simp [scan, hv] at h
      subst h
      exact ⟨rfl, hv⟩
    · simp [scan, hv] at h

theorem scan_isSome {n : Nat} {f : Fetch} (h : (scan n f).isSome) :
    scan n f = some (fetchedValues f) ∧ (fetchedValues f).length = n := by
  obtain ⟨vals, hvals⟩ := Option.isSome_iff_exists.mp h
  obtain ⟨hf, hlen⟩ := scan_eq_some hvals
  subst hf
  exact ⟨hvals, hlen⟩

/-- When every scan succeeds the loop appends one row per fetched row, in order. -/
theorem scanRows_of_scans (ncols : Nat) (fetches : List Fetch) (acc : List Row)
    (h : ∀ f ∈ fetches, (scan ncols f).isSome) :
    scanRows ncols fetches acc
      = some (acc ++ fetches.map (fun f => (fetchedValues f).map cellOf)) := by
  induction fetches generalizing acc with
  | nil => simp [scanRows]
  | cons f rest ih =>
    have hf := (scan_isSome (h f (List.mem_cons_self f rest))).1
    have hrest : ∀ g ∈ rest, (scan ncols g).isSome :=
      fun g hg => h g (List.mem_cons_of_mem f hg)
    simp [scanRows, hf, ih _ hrest, valueRow_eq_map]

/-- The loop returns early exactly when some scan fails. -/
theorem scanRows_eq_none (ncols : Nat) (fetches : List Fetch) (acc : List Row) :
    scanRows ncols fetches acc = none ↔ ∃ f ∈ fetches, scan ncols f = none := by
  induction fetches generalizing acc with
  | nil => simp [scanRows]
  | cons f rest ih =>
    cases hf : scan ncols f with
    | none => simp [scanRows, hf]
    | some vals => simp [scanRows, hf, ih]

/-- The log and file system of a run in which every stage succeeds up to and
including the save. -/
theorem run_of_success (env : Env) (fs : FS) (requestBody : RequestBody) (rows : Rows)
    (columns : List GoString)
    (hbind : BindJSON env.body = some requestBody)
    (hopen : env.openError = false)
    (hquery : env.queryResult = some rows)
    (hsheet : env.addSheetError = false)
    (hcols : rows.columns = some columns)
    (hscan : ∀ f ∈ rows.fetches, (scan columns.length f).isSome)
    (hsave : env.saveResult = .saved) :
    GenerateExcel env fs =
      (let path := tempFilePath env.tempDir requestBody.DBName
       let doc : XlsxFile := [⟨utf8 "Sheet1", columns.map Cell.SetString ::
          rows.fetches.map (fun f => (fetchedValues f).map cellOf)⟩]
       ⟨((fs.write path (.xlsx doc)).remove path),
        [.sqlOpen (utf8 "mysql") (dsnOf requestBody),
         .dbQuery requestBody.Query,
         .fileSave path doc .saved,
         .cHeader (utf8 "Content-Description") (utf8 "File Transfer"),
         .cHeader (utf8 "Content-Disposition")
            (utf8 "attachment; filename=" ++ excelFileName requestBody.DBName),
         .cHeader (utf8 "Content-Type") (utf8 "application/octet-stream"),
         serveFile env (fs.write path (.xlsx doc)) path,
         .osRemove path, .rowsClose, .dbClose]⟩) := by
  simp [GenerateExcel, buildSheet, saveAndServe, hbind, hopen, hquery, hsheet, hcols,
    scanRows_of_scans _ _ _ hscan, hsave, headerRow_eq_map, returnWith, runDeferred,
    Ctx.emit, saveEffect]


/-! ## The stages of a run -/

/-- A failure of `sql.Open` is answered with 500 and nothing else happens. -/
theorem open_failure (env : Env) (fs : FS) (requestBody : RequestBody)
    (hbind : BindJSON env.body = some requestBody) (hopen : env.openError = true) :
    GenerateExcel env fs
      = ⟨fs, [.sqlOpen (utf8 "mysql") (dsnOf requestBody),
              .cJSON 500 (utf8 "error") (utf8 "Failed to connect to the database")]⟩ := by
  simp [GenerateExcel, hbind, hopen, returnWith, Ctx.errorJSON, Ctx.emit,
    StatusInternalServerError]

/-- A failure of `db.Query` is answered with 500; the connection is closed and no file is written. -/
theorem query_failure (env : Env) (fs : FS) (requestBody : RequestBody)
    (hbind : BindJSON env.body = some requestBody) (hopen : env.openError = false)
    (hquery : env.queryResult = none) :
    GenerateExcel env fs
      = ⟨fs, [.sqlOpen (utf8 "mysql") (dsnOf requestBody), .dbQuery requestBody.Query,
              .cJSON 500 (utf8 "error") (utf8 "Failed to execute the query"), .dbClose]⟩ := by
  simp [GenerateExcel, hbind, hopen, hquery, returnWith, runDeferred, Ctx.errorJSON, Ctx.emit,
    StatusInternalServerError]

/-- A failure of `file.AddSheet` is answered with 500; no file is written. -/
theorem sheet_failure (env : Env) (fs : FS) (requestBody : RequestBody) (rows : Rows)
    (hbind : BindJSON env.body = some requestBody) (hopen : env.openError = false)
    (hquery : env.queryResult = some rows) (hsheet : env.addSheetError = true) :
    GenerateExcel env fs
      = ⟨fs, [.sqlOpen (utf8 "mysql") (dsnOf requestBody), .dbQuery requestBody.Query,
              .cJSON 500 (utf8 "error") (utf8 "Failed to create Excel sheet"),
              .rowsClose, .dbClose]⟩ := by
  simp [GenerateExcel, buildSheet, hbind, hopen, hquery, hsheet, returnWith, runDeferred,
    Ctx.errorJSON, Ctx.emit, StatusInternalServerError]

/-- A failure of `rows.Columns` is answered with 500; no file is written. -/
theorem columns_failure (env : Env) (fs : FS) (requestBody : RequestBody) (rows : Rows)
    (hbind : BindJSON env.body = some requestBody) (hopen : env.openError = false)
    (hquery : env.queryResult = some rows) (hsheet : env.addSheetError = false)
    (hcols : rows.columns = none) :
    GenerateExcel env fs
      = ⟨fs, [.sqlOpen (utf8 "mysql") (dsnOf requestBody), .dbQuery requestBody.Query,
              .cJSON 500 (utf8 "error") (utf8 "Failed to fetch column names"),
              .rowsClose, .dbClose]⟩ := by
  simp [GenerateExcel, buildSheet, hbind, hopen, hquery, hsheet, hcols, returnWith,
    runDeferred, Ctx.errorJSON, Ctx.emit, StatusInternalServerError]

/-- A failure of `rows.Scan` on any row is answered with 500; no file is written,
whatever rows were scanned before. -/
theorem scan_failure (env : Env) (fs : FS) (requestBody : RequestBody) (rows : Rows)
    (columns : List GoString) (bad : Fetch)
    (hbind : BindJSON env.body = some requestBody) (hopen : env.openError = false)
    (hquery : env.queryResult = some rows) (hsheet : env.addSheetError = false)
    (hcols : rows.columns = some columns)
    (hmem : bad ∈ rows.fetches) (hbad : scan columns.length bad = none) :
    GenerateExcel env fs
      = ⟨fs, [.sqlOpen (utf8 "mysql") (dsnOf requestBody), .dbQuery requestBody.Query,
              .cJSON 500 (utf8 "error") (utf8 "Failed to scan row values"),
              .rowsClose, .dbClose]⟩ := by
  have hnone : scanRows columns.length rows.fetches [headerRow columns] = none :=
    (scanRows_eq_none _ _ _).mpr ⟨bad, hmem, hbad⟩
  simp [GenerateExcel, buildSheet, hbind, hopen, hquery, hsheet, hcols, hnone, returnWith,
    runDeferred, Ctx.errorJSON, Ctx.emit, StatusInternalServerError]

/-- A failure of `file.Save` is answered with 500 and nothing is served. -/
theorem save_failure (env : Env) (fs : FS) (requestBody : RequestBody) (rows : Rows)
    (columns : List GoString)
    (hbind : BindJSON env.body = some requestBody) (hopen : env.openError = false)
    (hquery : env.queryResult = some rows) (hsheet : env.addSheetError = false)
    (hcols : rows.columns = some columns)
    (hscan : ∀ f ∈ rows.fetches, (scan columns.length f).isSome)
    (hsave : env.saveResult ≠ .saved) :
    (GenerateExcel env fs).log
      = [.sqlOpen (utf8 "mysql") (dsnOf requestBody), .dbQuery requestBody.Query,
         .fileSave (tempFilePath env.tempDir requestBody.DBName)
           [⟨utf8 "Sheet1", columns.map Cell.SetString ::
              rows.fetches.map (fun f => (fetchedValues f).map cellOf)⟩] env.saveResult,
         .cJSON 500 (utf8 "error") (utf8 "Failed to save Excel file"),
         .rowsClose, .dbClose] := by
  simp [GenerateExcel, buildSheet, saveAndServe, hbind, hopen, hquery, hsheet, hcols,
    scanRows_of_scans _ _ _ hscan, hsave, headerRow_eq_map, returnWith, runDeferred,
    Ctx.errorJSON, Ctx.emit, StatusInternalServerError]

theorem serveFile_expected (env : Env) (fs : FS) (path : GoString) :
    (serveFile env fs path).expected path := by
  unfold serveFile
  repeat' split
  all_goals rfl

/-- Once the request is bound, every error answer of the run has status 500
and every file operation is on the temporary file path. -/
theorem log_expected (env : Env) (fs : FS) (requestBody : RequestBody)
    (hbind : BindJSON env.body = some requestBody) :
    ∀ e ∈ (GenerateExcel env fs).log,
      e.expected (tempFilePath env.tempDir requestBody.DBName) := by
  by_cases hopen : env.openError = true
  · rw [open_failure env fs requestBody hbind hopen]
    simp [Event.expected]
  have hopen : env.openError = false := by simpa using hopen
  cases hquery : env.queryResult with
  | none =>
    rw [query_failure env fs requestBody hbind hopen hquery]
    simp [Event.expected]
  | some rows =>
    by_cases hsheet : env.addSheetError = true
    · rw [sheet_failure env fs requestBody rows hbind hopen hquery hsheet]
      simp [Event.expected]
    have hsheet : env.addSheetError = false := by simpa using hsheet
    cases hcols : rows.columns with
    | none =>
      rw [columns_failure env fs requestBody rows hbind hopen hquery hsheet hcols]
      simp [Event.expected]
    | some columns =>
      by_cases hscan : ∀ f ∈ rows.fetches, (scan columns.length f).isSome
      · by_cases hsave : env.saveResult = .saved
        · rw [run_of_success env fs requestBody rows columns hbind hopen hquery hsheet hcols
            hscan hsave]
          intro e he
          simp only [List.mem_cons, List.mem_singleton, List.not_mem_nil, or_false] at he
          rcases he with rfl | rfl | rfl | rfl | rfl | rfl | rfl | rfl | rfl | rfl
          all_goals first
            | exact serveFile_expected _ _ _
            | simp [Event.expected]
        · rw [save_failure env fs requestBody rows columns hbind hopen hquery hsheet hcols
            hscan hsave]
          simp [Event.expected]
      · simp only [not_forall] at hscan
        obtain ⟨bad, hmem, hbad⟩ := hscan
        have hbad : scan columns.length bad = none := by simpa using hbad
        rw [scan_failure env fs requestBody rows columns bad hbind hopen hquery hsheet hcols
          hmem hbad]
        simp [Event.expected]

/-! ## C4: a body that does not bind -/

/-- C4: when the request body fails to bind, the handler answers
`c.JSON(400, {"error": "Invalid JSON data"})` and that is the only call it
makes: no connection is opened, no query is run, and the file system is left
as it was. -/
theorem bind_failure_only_answers_400 (env : Env) (fs : FS)
    (hbind : BindJSON env.body = none) :
    GenerateExcel env fs = ⟨fs, [.cJSON 400 (utf8 "error") (utf8 "Invalid JSON data")]⟩ := by
  simp [GenerateExcel, hbind, returnWith, Ctx.errorJSON, Ctx.emit, StatusBadRequest]

/-- C4 at the body `{"db_user": 5}`, which is JSON but does not bind (a number
where a string is expected), in an environment where every later stage would
succeed. -/
theorem bind_failure_only_answers_400_witness :
    BindJSON envWithNumber.body = none ∧
    GenerateExcel envWithNumber []
      = ⟨[], [.cJSON 400 (utf8 "error") (utf8 "Invalid JSON data")]⟩ :=
  ⟨by decide, bind_failure_only_answers_400 envWithNumber [] (by decide)⟩

/-! ## C1: header row and row count -/

/-- C1: when binding, connection, query, sheet creation, column read, every row
scan and save succeed, the handler saves a workbook with the single sheet
"Sheet1" whose first row is the column names as text cells, in order, followed
by exactly as many rows as the cursor yielded. -/
theorem header_and_row_count (env : Env) (fs : FS) (requestBody : RequestBody) (rows : Rows)
    (columns : List GoString)
    (hbind : BindJSON env.body = some requestBody)
    (hopen : env.openError = false)
    (hquery : env.queryResult = some rows)
    (hsheet : env.addSheetError = false)
    (hcols : rows.columns = some columns)
    (hscan : ∀ f ∈ rows.fetches, (scan columns.length f).isSome)
    (hsave : env.saveResult = .saved) :
    ∃ body : List Row,
      Event.fileSave (tempFilePath env.tempDir requestBody.DBName)
          [⟨utf8 "Sheet1", columns.map Cell.SetString :: body⟩] .saved
        ∈ (GenerateExcel env fs).log
      ∧ (columns.map Cell.SetString).length = columns.length
      ∧ body.length = rows.fetches.length
      ∧ (columns.map Cell.SetString :: body).length = 1 + rows.fetches.length := by
  refine ⟨rows.fetches.map (fun f => (fetchedValues f).map cellOf), ?_, ?_, ?_, ?_⟩
  · rw [run_of_success env fs requestBody rows columns hbind hopen hquery hsheet hcols hscan hsave]
    simp
  · simp
  · simp
  · simp [Nat.add_comm]

/-- C1 at the example of the specification. -/
theorem header_and_row_count_witness :
    ∃ body : List Row,
      Event.fileSave (tempFilePath (utf8 "/tmp") (utf8 "shop"))
          [⟨utf8 "Sheet1", [utf8 "id", utf8 "price"].map Cell.SetString :: body⟩] .saved
        ∈ (GenerateExcel exampleEnv []).log
      ∧ ([utf8 "id", utf8 "price"].map Cell.SetString).length = 2
      ∧ body.length = 2
      ∧ ([utf8 "id", utf8 "price"].map Cell.SetString :: body).length = 1 + 2 :=
  header_and_row_count exampleEnv [] exampleRequest exampleRows [utf8 "id", utf8 "price"]
    (by decide) rfl rfl rfl rfl (by decide) rfl

/-! ## C2: the cell written for a value -/

/-- C3: in a successful export with columns `columns` and result rows
`rowVals` (each with one value per column), the sheet saved is the header row
followed by `rowVals` mapped row by row and value by value through the cell
mapping: body row `i` has exactly `columns.length` cells and its cell `j` is the
cell of value `j` of result row `i`. -/
theorem rows_and_columns_in_order (env : Env) (fs : FS) (requestBody : RequestBody)
    (rows : Rows) (columns : List GoString) (rowVals : List (List Value))
    (hbind : BindJSON env.body = some requestBody)
    (hopen : env.openError = false)
    (hquery : env.queryResult = some rows)
    (hsheet : env.addSheetError = false)
    (hcols : rows.columns = some columns)
    (hrows : rows.fetches = rowVals.map Fetch.row)
    (harity : ∀ r ∈ rowVals, r.length = columns.length)
    (hsave : env.saveResult = .saved) :
    ∃ body : List Row,
      Event.fileSave (tempFilePath env.tempDir requestBody.DBName)
          [⟨utf8 "Sheet1", columns.map Cell.SetString :: body⟩] .saved
        ∈ (GenerateExcel env fs).log
      ∧ body = rowVals.map (fun r => r.map cellOf)
      ∧ body.length = rowVals.length
      ∧ (∀ (i : Nat) (hi : i < body.length), (body.get ⟨i, hi⟩).length = columns.length)
      ∧ (∀ (i j : Nat) (r : List Value) (v : Value),
          rowVals.get? i = some r → r.get? j = some v →
            (body.get? i).bind (fun row => row.get? j) = some (cellOf v)) := by
  have hscan : ∀ f ∈ rows.fetches, (scan columns.length f).isSome := by
    intro f hf
    rw [hrows] at hf
    obtain ⟨r, hr, rfl⟩ := List.mem_map.mp hf
    simp [scan, harity r hr]
  refine ⟨rowVals.map (fun r => r.map cellOf), ?_, rfl, by simp, ?_, ?_⟩
  · rw [run_of_success env fs requestBody rows columns hbind hopen hquery hsheet hcols hscan hsave]
    simp [hrows, fetchedValues, Function.comp_def]
  · intro i hi
    simp only [List.get_eq_getElem, List.getElem_map, List.length_map]
    exact harity _ (List.getElem_mem _)
  · intro i j r v hr hv
    simp [List.get?_eq_getElem?, List.getElem?_map] at hr hv ⊢
    simp [hr, hv]

/-- C3 at the example of the specification. -/
theorem rows_and_columns_in_order_witness :
    ∃ body : List Row,
      Event.fileSave (tempFilePath (utf8 "/tmp") (utf8 "shop"))
          [⟨utf8 "Sheet1", [utf8 "id", utf8 "price"].map Cell.SetString :: body⟩] .saved
        ∈ (GenerateExcel exampleEnv []).log
      ∧ body = [[Value.int64 1, .float64 f9_5], [.int64 2, .float64 f10]].map
          (fun r => r.map cellOf)
      ∧ body.length = [[Value.int64 1, .float64 f9_5], [.int64 2, .float64 f10]].length
      ∧ (∀ (i : Nat) (hi : i < body.length), (body.get ⟨i, hi⟩).length = 2)
      ∧ (∀ (i j : Nat) (r : List Value) (v : Value),
          [[Value.int64 1, .float64 f9_5], [.int64 2, .float64 f10]].get? i = some r →
          r.get? j = some v →
            (body.get? i).bind (fun row => row.get? j) = some (cellOf v)) :=
  rows_and_columns_in_order exampleEnv [] exampleRequest exampleRows [utf8 "id", utf8 "price"]
    [[.int64 1, .float64 f9_5], [.int64 2, .float64 f10]]
    (by decide) rfl rfl rfl rfl rfl (by decide) rfl

/-! ## C5: absent fields -/

/-- The model of the key lookup of encoding/json on keys of several spellings:
letter case is ignored, the long s (U+017F) selects `s` and the Kelvin sign
(U+212A) selects `k`, and a key is matched as a whole. A member whose key
selects `db_user` is decoded whatever the spelling: a number is a type error,
a string is stored. -/
theorem keyMatches_examples :
    keyMatches "db_user" (utf8 "db_user") = true
    ∧ keyMatches "db_user" (utf8 "DB_User") = true
    ∧ keyMatches "db_user" (utf8 "db_uſer") = true
    ∧ keyMatches "db_user" (utf8 "db_users") = false
    ∧ keyMatches "db_user" (utf8 "dbuser") = false
    ∧ keyMatches "query" (utf8 "QUERY") = true
    ∧ keyMatches "query" (utf8 "quéry") = false
    ∧ foldName [0xE2, 0x84, 0xAA] = utf8 "K"
    ∧ BindJSON (some (.object [(utf8 "db_uſer", .number (utf8 "5"))])) = none
    ∧ BindJSON (some (.object [(utf8 "db_uſer", .string (utf8 "x"))]))
        = some ⟨utf8 "x", [], [], [], []⟩
    ∧ BindJSON (some (.object [(utf8 "other", .number (utf8 "5"))]))
        = some RequestBody.zero
    ∧ BindJSON (some .null) = some RequestBody.zero
    ∧ BindJSON (some (.array [])) = none := by
  decide

theorem decodeMember_flag (st : RequestBody × Bool) (m : GoString × JSON)
    (hm : isField m.1 = true → m.2 = .null ∨ ∃ s, m.2 = .string s) :
    (decodeMember st m).2 = st.2 := by
  unfold decodeMember
  simp only [isField, Bool.or_eq_true] at hm
  split_ifs with h1 h2 h3 h4 h5
  all_goals first
    | rfl
    | (have hv : m.2 = .null ∨ ∃ s, m.2 = .string s := hm (by simp [*])
       rcases hv with hv | ⟨s, hv⟩ <;> simp [hv, decodeString])

theorem foldl_decodeMember_flag (members : List (GoString × JSON)) (st : RequestBody × Bool)
    (hm : ∀ m ∈ members, isField m.1 = true → m.2 = .null ∨ ∃ s, m.2 = .string s) :
    (members.foldl decodeMember st).2 = st.2 := by
  induction members generalizing st with
  | nil => rfl
  | cons m rest ih =>
    simp only [List.foldl_cons]
    rw [ih _ (fun x hx => hm x (List.mem_cons_of_mem m hx)),
      decodeMember_flag st m (hm m (List.mem_cons_self m rest))]

theorem decodeMember_DBUser (st : RequestBody × Bool) (m : GoString × JSON)
    (h : keyMatches "db_user" m.1 = false) :
    (decodeMember st m).1.DBUser = st.1.DBUser := by
  unfold decodeMember
  split_ifs <;> first | rfl | (split <;> rfl) | simp_all

theorem foldl_decodeMember_DBUser (members : List (GoString × JSON)) (st : RequestBody × Bool)
    (h : absent "db_user" members) :
    (members.foldl decodeMember st).1.DBUser = st.1.DBUser := by
  induction members generalizing st with
  | nil => rfl
  | cons m rest ih =>
    simp only [List.foldl_cons]
    rw [ih _ (fun x hx => h x (List.mem_cons_of_mem m hx)),
      decodeMember_DBUser st m (h m (List.mem_cons_self m rest))]

theorem decodeMember_DBPassword (st : RequestBody × Bool) (m : GoString × JSON)
    (h : keyMatches "db_password" m.1 = false) :
    (decodeMember st m).1.DBPassword = st.1.DBPassword := by
  unfold decodeMember
  split_ifs <;> first | rfl | (split <;> rfl) | simp_all

theorem foldl_decodeMember_DBPassword (members : List (GoString × JSON)) (st : RequestBody × Bool)
    (h : absent "db_password" members) :
    (members.foldl decodeMember st).1.DBPassword = st.1.DBPassword := by
  induction members generalizing st with
  | nil => rfl
  | cons m rest ih =>
    simp only [List.foldl_cons]
    rw [ih _ (fun x hx => h x (List.mem_cons_of_mem m hx)),
      decodeMember_DBPassword st m (h m (List.mem_cons_self m rest))]

theorem decodeMember_DBHost (st : RequestBody × Bool) (m : GoString × JSON)
    (h : keyMatches "db_host" m.1 = false) :
    (decodeMember st m).1.DBHost = st.1.DBHost := by
  unfold decodeMember
  split_ifs <;> first | rfl | (split <;> rfl) | simp_all

theorem foldl_decodeMember_DBHost (members : List (GoString × JSON)) (st : RequestBody × Bool)
    (h : absent "db_host" members) :
    (members.foldl decodeMember st).1.DBHost = st.1.DBHost := by
  induction members generalizing st with
  | nil => rfl
  | cons m rest ih =>
    simp only [List.foldl_cons]
    rw [ih _ (fun x hx => h x (List.mem_cons_of_mem m hx)),
      decodeMember_DBHost st m (h m (List.mem_cons_self m rest))]

theorem decodeMember_DBName (st : RequestBody × Bool) (m : GoString × JSON)
    (h : keyMatches "db_name" m.1 = false) :
    (decodeMember st m).1.DBName = st.1.DBName := by
  unfold decodeMember
  split_ifs <;> first | rfl | (split <;> rfl) | simp_all

theorem foldl_decodeMember_DBName (members : List (GoString × JSON)) (st : RequestBody × Bool)
    (h : absent "db_name" members) :
    (members.foldl decodeMember st).1.DBName = st.1.DBName := by
  induction members generalizing st with
  | nil => rfl
  | cons m rest ih =>
    simp only [List.foldl_cons]
    rw [ih _ (fun x hx => h x (List.mem_cons_of_mem m hx)),
      decodeMember_DBName st m (h m (List.mem_cons_self m rest))]

theorem decodeMember_Query (st : RequestBody × Bool) (m : GoString × JSON)
    (h : keyMatches "query" m.1 = false) :
    (decodeMember st m).1.Query = st.1.Query := by
  unfold decodeMember
  split_ifs <;> first | rfl | (split <;> rfl) | simp_all

theorem foldl_decodeMember_Query (members : List (GoString × JSON)) (st : RequestBody × Bool)
    (h : absent "query" members) :
    (members.foldl decodeMember st).1.Query = st.1.Query := by
  induction members generalizing st with
  | nil => rfl
  | cons m rest ih =>
    simp only [List.foldl_cons]
    rw [ih _ (fun x hx => h x (List.mem_cons_of_mem m hx)),
      decodeMember_Query st m (h m (List.mem_cons_self m rest))]

/-- The handler's first call after a successful bind is `sql.Open` on the DSN of the bound struct. -/
theorem log_head_of_bind (env : Env) (fs : FS) (requestBody : RequestBody)
    (hbind : BindJSON env.body = some requestBody) :
    (GenerateExcel env fs).log.head? = some (.sqlOpen (utf8 "mysql") (dsnOf requestBody)) := by
  simp only [GenerateExcel, hbind, buildSheet, saveAndServe]
  repeat' split
  all_goals simp [returnWith, runDeferred, Ctx.errorJSON, Ctx.emit]

/-- C5 (as stated) fails: the example request without its `query` member is a
well-formed JSON object with a field absent, yet it binds (`Query` is the
empty string), the connection is opened and the empty query is run; the answer
is the 500 of the query stage, not a 400. -/
theorem absent_field_still_binds :
    absent "query" [(utf8 "db_user", JSON.string (utf8 "u")),
      (utf8 "db_password", .string (utf8 "p")), (utf8 "db_host", .string (utf8 "localhost")),
      (utf8 "db_name", .string (utf8 "shop"))]
    ∧ BindJSON (some bodyWithoutQuery)
        = some ⟨utf8 "u", utf8 "p", utf8 "localhost", utf8 "shop", []⟩
    ∧ GenerateExcel envWithoutQuery []
        = ⟨[], [.sqlOpen (utf8 "mysql") (utf8 "u:p@tcp(localhost)/shop"),
                .dbQuery [],
                .cJSON 500 (utf8 "error") (utf8 "Failed to execute the query"),
                .dbClose]⟩
    ∧ Event.cJSON 400 (utf8 "error") (utf8 "Invalid JSON data")
        ∉ (GenerateExcel envWithoutQuery []).log := by
  refine ⟨?_, by decide, by decide, by decide⟩
  intro m hm
  simp only [List.mem_cons, List.mem_singleton, List.not_mem_nil, or_false] at hm
  rcases hm with rfl | rfl | rfl | rfl <;> decide

/-- C5 (amended): a request body that is a JSON object in which every member
for one of the five fields is a string or null binds successfully, whichever
of the five fields are absent; each absent field is left as the empty string,
the handler goes on to call `sql.Open` with the DSN built from the bound
fields, and it never answers 400. -/
theorem object_with_absent_fields_binds (env : Env) (fs : FS)
    (members : List (GoString × JSON))
    (hbody : env.body = some (.object members))
    (hstr : ∀ m ∈ members, isField m.1 = true → m.2 = .null ∨ ∃ s, m.2 = .string s) :
    ∃ requestBody : RequestBody,
      BindJSON env.body = some requestBody
      ∧ (absent "db_user" members → requestBody.DBUser = [])
      ∧ (absent "db_password" members → requestBody.DBPassword = [])
      ∧ (absent "db_host" members → requestBody.DBHost = [])
      ∧ (absent "db_name" members → requestBody.DBName = [])
      ∧ (absent "query" members → requestBody.Query = [])
      ∧ (GenerateExcel env fs).log.head?
          = some (.sqlOpen (utf8 "mysql") (dsnOf requestBody))
      ∧ (∀ key message : GoString,
          Event.cJSON 400 key message ∉ (GenerateExcel env fs).log) := by
  have hflag := foldl_decodeMember_flag members (RequestBody.zero, true) hstr
  have hbind : BindJSON env.body
      = some (members.foldl decodeMember (RequestBody.zero, true)).1 := by
    simp only [hbody, BindJSON, unmarshal]
    simp only [] at hflag
    simp [hflag, validateStruct]
  refine ⟨_, hbind, ?_, ?_, ?_, ?_, ?_, log_head_of_bind env fs _ hbind, ?_⟩
  · intro h; rw [foldl_decodeMember_DBUser _ _ h]; rfl
  · intro h; rw [foldl_decodeMember_DBPassword _ _ h]; rfl
  · intro h; rw [foldl_decodeMember_DBHost _ _ h]; rfl
  · intro h; rw [foldl_decodeMember_DBName _ _ h]; rfl
  · intro h; rw [foldl_decodeMember_Query _ _ h]; rfl
  · intro key message hmem
    have h := log_expected env fs _ hbind _ hmem
    simp [Event.expected] at h

/-- C5 (amended) at the example request without its `query` member. -/
theorem object_with_absent_fields_binds_witness :
    ∃ requestBody : RequestBody,
      BindJSON envWithoutQuery.body = some requestBody
      ∧ (absent "db_user" [(utf8 "db_user", JSON.string (utf8 "u")),
          (utf8 "db_password", .string (utf8 "p")), (utf8 "db_host", .string (utf8 "localhost")),
          (utf8 "db_name", .string (utf8 "shop"))] → requestBody.DBUser = [])
      ∧ (absent "db_password" [(utf8 "db_user", JSON.string (utf8 "u")),
          (utf8 "db_password", .string (utf8 "p")), (utf8 "db_host", .string (utf8 "localhost")),
          (utf8 "db_name", .string (utf8 "shop"))] → requestBody.DBPassword = [])
      ∧ (absent "db_host" [(utf8 "db_user", JSON.string (utf8 "u")),
          (utf8 "db_password", .string (utf8 "p")), (utf8 "db_host", .string (utf8 "localhost")),
          (utf8 "db_name", .string (utf8 "shop"))] → requestBody.DBHost = [])
      ∧ (absent "db_name" [(utf8 "db_user", JSON.string (utf8 "u")),
          (utf8 "db_password", .string (utf8 "p")), (utf8 "db_host", .string (utf8 "localhost")),
          (utf8 "db_name", .string (utf8 "shop"))] → requestBody.DBName = [])
      ∧ (absent "query" [(utf8 "db_user", JSON.string (utf8 "u")),
          (utf8 "db_password", .string (utf8 "p")), (utf8 "db_host", .string (utf8 "localhost")),
          (utf8 "db_name", .string (utf8 "shop"))] → requestBody.Query = [])
      ∧ (GenerateExcel envWithoutQuery []).log.head?
          = some (.sqlOpen (utf8 "mysql") (dsnOf requestBody))
      ∧ (∀ key message : GoString,
          Event.cJSON 400 key message ∉ (GenerateExcel envWithoutQuery []).log) :=
  object_with_absent_fields_binds envWithoutQuery []
    [(utf8 "db_user", .string (utf8 "u")), (utf8 "db_password", .string (utf8 "p")),
     (utf8 "db_host", .string (utf8 "localhost")), (utf8 "db_name", .string (utf8 "shop"))]
    rfl
    (by
      intro m hm _
      simp only [List.mem_cons, List.mem_singleton, List.not_mem_nil, or_false] at hm
      rcases hm with rfl | rfl | rfl | rfl <;> exact Or.inr ⟨_, rfl⟩)

/-! ## C6: the temporary file after the handler returns -/

theorem FS.read_remove (fs : FS) (path : GoString) :
    (fs.remove path).read path = none := by
  simp only [FS.read, FS.remove, Option.map_eq_none', List.find?_eq_none, List.mem_filter]
  intro f hf
  simpa using hf.2

/-- Whenever the save succeeds, the file is gone when the handler returns,
whether or not serving it succeeded. -/
theorem saved_file_is_removed (env : Env) (fs : FS) (requestBody : RequestBody) (rows : Rows)
    (columns : List GoString)
    (hbind : BindJSON env.body = some requestBody)
    (hopen : env.openError = false)
    (hquery : env.queryResult = some rows)
    (hsheet : env.addSheetError = false)
    (hcols : rows.columns = some columns)
    (hscan : ∀ f ∈ rows.fetches, (scan columns.length f).isSome)
    (hsave : env.saveResult = .saved) :
    (GenerateExcel env fs).fs.read (tempFilePath env.tempDir requestBody.DBName) = none := by
  rw [run_of_success env fs requestBody rows columns hbind hopen hquery hsheet hcols hscan hsave]
  exact FS.read_remove _ _

/-- C6 fails on the code when `file.Save` fails after having created the file:
in the example with such a save, the handler answers 500, never calls
`os.Remove` (its `defer` is registered only after `c.File`), and the truncated
file `/tmp/result_shop.xlsx` still exists when the handler returns. -/
theorem failed_save_leaves_file :
    tempFilePath (utf8 "/tmp") (utf8 "shop") = utf8 "/tmp/result_shop.xlsx"
    ∧ GenerateExcel envWriteFails []
        = ⟨[(utf8 "/tmp/result_shop.xlsx", .truncated)],
           [.sqlOpen (utf8 "mysql") (utf8 "u:p@tcp(localhost)/shop"),
            .dbQuery (utf8 "SELECT id, price FROM items"),
            .fileSave (utf8 "/tmp/result_shop.xlsx") exampleDoc .writeFailed,
            .cJSON 500 (utf8 "error") (utf8 "Failed to save Excel file"),
            .rowsClose, .dbClose]⟩
    ∧ (GenerateExcel envWriteFails []).fs.read (utf8 "/tmp/result_shop.xlsx")
        = some .truncated := by
  decide

/-! ## C7: failures after parsing -/

/-- C7 fails on the code when advancing the cursor fails: in the example with a
cursor that delivers the first of its two rows and then fails in `rows.Next()`,
the loop just ends (`rows.Err()` is never consulted), and the workbook holding
the header and that single row is saved and served with status 200; no 500 is
answered. -/
theorem cursor_failure_serves_incomplete_sheet :
    rowsCutShort.nextError = true
    ∧ GenerateExcel envCutShort []
        = ⟨[],
           [.sqlOpen (utf8 "mysql") (utf8 "u:p@tcp(localhost)/shop"),
            .dbQuery (utf8 "SELECT id, price FROM items"),
            .fileSave (utf8 "/tmp/result_shop.xlsx")
              [⟨utf8 "Sheet1", [[.SetString (utf8 "id"), .SetString (utf8 "price")],
                 [.SetInt64 1, .SetFloatWithFormat f9_5 (utf8 "0.00")]]⟩] .saved,
            .cHeader (utf8 "Content-Description") (utf8 "File Transfer"),
            .cHeader (utf8 "Content-Disposition") (utf8 "attachment; filename=result_shop.xlsx"),
            .cHeader (utf8 "Content-Type") (utf8 "application/octet-stream"),
            .cFile (utf8 "/tmp/result_shop.xlsx") 200
              (some (.xlsx [⟨utf8 "Sheet1",
                [[.SetString (utf8 "id"), .SetString (utf8 "price")],
                 [.SetInt64 1, .SetFloatWithFormat f9_5 (utf8 "0.00")]]⟩])),
            .osRemove (utf8 "/tmp/result_shop.xlsx"), .rowsClose, .dbClose]⟩ := by
  decide

/-! ## C8: the response of a successful export -/

theorem serveFile_isClose (env : Env) (fs : FS) (path : GoString) :
    (serveFile env fs path).isClose = false := by
  unfold serveFile
  repeat' split
  all_goals rfl

/-- After a successful query the log ends with `rows.Close()` then `db.Close()`,
and no other call releases a database resource. -/
theorem log_of_query (env : Env) (fs : FS) (requestBody : RequestBody) (rows : Rows)
    (hbind : BindJSON env.body = some requestBody) (hopen : env.openError = false)
    (hquery : env.queryResult = some rows) :
    ∃ before : List Event,
      (GenerateExcel env fs).log = before ++ [.rowsClose, .dbClose]
      ∧ ∀ e ∈ before, e.isClose = false := by
  have three : ∀ a b c : Event, a.isClose = false → b.isClose = false → c.isClose = false →
      ∀ e ∈ [a, b, c], e.isClose = false := by
    intro a b c ha hb hc e he
    simp only [List.mem_cons, List.mem_singleton, List.not_mem_nil, or_false] at he
    rcases he with rfl | rfl | rfl <;> assumption
  by_cases hsheet : env.addSheetError = true
  · rw [sheet_failure env fs requestBody rows hbind hopen hquery hsheet]
    exact ⟨[_, _, _], rfl, three _ _ _ rfl rfl rfl⟩
  have hsheet : env.addSheetError = false := by simpa using hsheet
  cases hcols : rows.columns with
  | none =>
    rw [columns_failure env fs requestBody rows hbind hopen hquery hsheet hcols]
    exact ⟨[_, _, _], rfl, three _ _ _ rfl rfl rfl⟩
  | some columns =>
    by_cases hscan : ∀ f ∈ rows.fetches, (scan columns.length f).isSome
    · by_cases hsave : env.saveResult = .saved
      · rw [run_of_success env fs requestBody rows columns hbind hopen hquery hsheet hcols
          hscan hsave]
        refine ⟨[_, _, _, _, _, _, _, _], rfl, ?_⟩
        intro e he
        simp only [List.mem_cons, List.mem_singleton, List.not_mem_nil, or_false] at he
        rcases he with rfl | rfl | rfl | rfl | rfl | rfl | rfl | rfl <;>
          first | rfl | exact serveFile_isClose _ _ _
      · rw [save_failure env fs requestBody rows columns hbind hopen hquery hsheet hcols
          hscan hsave]
        refine ⟨[_, _, _, _], rfl, ?_⟩
        intro e he
        simp only [List.mem_cons, List.mem_singleton, List.not_mem_nil, or_false] at he
        rcases he with rfl | rfl | rfl | rfl <;> rfl
    · simp only [not_forall] at hscan
      obtain ⟨bad, hmem, hbad⟩ := hscan
      have hbad : scan columns.length bad = none := by simpa using hbad
      rw [scan_failure env fs requestBody rows columns bad hbind hopen hquery hsheet hcols
        hmem hbad]
      exact ⟨[_, _, _], rfl, three _ _ _ rfl rfl rfl⟩

theorem count_of_not_isClose (before : List Event) (e : Event) (he : e.isClose = true)
    (h : ∀ x ∈ before, x.isClose = false) : before.count e = 0 := by
  rw [List.count_eq_zero]
  intro hmem
  rw [h e hmem] at he
  exact Bool.noConfusion he

/-- C10: in every run in which `sql.Open` succeeds, `db.Close()` is called
exactly once before the handler returns; and if moreover `db.Query` succeeds,
`rows.Close()` is called exactly once, the two calls are the last two of the
run, `rows.Close()` first, and no other call before them closes either
resource. This holds on every exit path (success and every later failure). -/
theorem resources_released (env : Env) (fs : FS) (requestBody : RequestBody)
    (hbind : BindJSON env.body = some requestBody) (hopen : env.openError = false) :
    (GenerateExcel env fs).log.count .dbClose = 1
    ∧ ∀ rows : Rows, env.queryResult = some rows →
        (GenerateExcel env fs).log.count .rowsClose = 1
        ∧ ∃ before : List Event,
            (GenerateExcel env fs).log = before ++ [.rowsClose, .dbClose]
            ∧ Event.rowsClose ∉ before ∧ Event.dbClose ∉ before := by
  constructor
  · cases hquery : env.queryResult with
    | none =>
      rw [query_failure env fs requestBody hbind hopen hquery]
      simp [List.count_cons]
    | some rows =>
      obtain ⟨before, hlog, hbefore⟩ := log_of_query env fs requestBody rows hbind hopen hquery
      rw [hlog, List.count_append, count_of_not_isClose before .dbClose rfl hbefore]
      decide
  · intro rows hquery
    obtain ⟨before, hlog, hbefore⟩ := log_of_query env fs requestBody rows hbind hopen hquery
    refine ⟨?_, before, hlog, ?_, ?_⟩
    · rw [hlog, List.count_append, count_of_not_isClose before .rowsClose rfl hbefore]
      decide
    · intro hmem
      exact Bool.noConfusion (hbefore _ hmem)
    · intro hmem
      exact Bool.noConfusion (hbefore _ hmem)

/-- C10 at the example of the specification. -/
theorem resources_released_witness :
    (GenerateExcel exampleEnv []).log.count .dbClose = 1
    ∧ ∀ rows : Rows, exampleEnv.queryResult = some rows →
        (GenerateExcel exampleEnv []).log.count .rowsClose = 1
        ∧ ∃ before : List Event,
            (GenerateExcel exampleEnv []).log = before ++ [.rowsClose, .dbClose]
            ∧ Event.rowsClose ∉ before ∧ Event.dbClose ∉ before :=
  resources_released exampleEnv [] exampleRequest (by decide) rfl

/-! ## C9: the path of the temporary file -/

theorem elements_ne_nil (path : GoString) : elements path ≠ [] := by
  cases path with
  | nil => simp [elements]
  | cons b bs =>
    simp only [elements]
    split_ifs
    · simp
    · split <;> simp

theorem elements_cons (b : UInt8) (bs : GoString) :
    elements (b :: bs)
      = if b = Separator then [] :: elements bs
        else match elements bs with
          | [] => [[b]]
          | e :: es => (b :: e) :: es := by
  rw [elements]

theorem elements_of_sepfree (e : GoString) (h : Separator ∉ e) : elements e = [e] := by
  induction e with
  | nil => rfl
  | cons b bs ih =>
    have hb : b ≠ Separator := fun hb => h (hb ▸ List.mem_cons_self b bs)
    have hbs : Separator ∉ bs := fun hmem => h (List.mem_cons_of_mem b hmem)
    simp [elements, hb, ih hbs]

theorem elements_append_sep (a b : GoString) :
    elements (a ++ Separator :: b) = elements a ++ elements b := by
  induction a with
  | nil => simp [elements]
  | cons x xs ih =>
    by_cases hx : x = Separator
    · simp [elements, hx, ih]
    · rw [List.cons_append, elements_cons, elements_cons, if_neg hx, if_neg hx, ih]
      cases hxs : elements xs with
      | nil => exact absurd hxs (elements_ne_nil xs)
      | cons e es => simp

theorem elements_sepfree (path : GoString) : ∀ e ∈ elements path, Separator ∉ e := by
  induction path with
  | nil => simp [elements]
  | cons b bs ih =>
    by_cases hb : b = Separator
    · simp only [elements, hb, if_true, List.mem_cons]
      rintro e (rfl | he)
      · simp
      · exact ih e he
    · simp only [elements, hb, if_false]
      cases hbs : elements bs with
      | nil => exact absurd hbs (elements_ne_nil bs)
      | cons e es =>
        rw [hbs] at ih
        simp only [List.mem_cons]
        rintro x (rfl | hx)
        · intro hmem
          rcases List.mem_cons.mp hmem with h | h
          · exact hb h.symm
          · exact ih e (List.mem_cons_self e es) h
        · exact ih x (List.mem_cons_of_mem e hx)

theorem elements_joinElements (es : List GoString) (hne : es ≠ [])
    (hfree : ∀ e ∈ es, Separator ∉ e) : elements (joinElements es) = es := by
  induction es with
  | nil => exact absurd rfl hne
  | cons e rest ih =>
    cases rest with
    | nil => simpa [joinElements] using elements_of_sepfree e (hfree e (List.mem_cons_self e []))
    | cons e2 rest2 =>
      have h2 : ∀ x ∈ e2 :: rest2, Separator ∉ x :=
        fun x hx => hfree x (List.mem_cons_of_mem e hx)
      simp only [joinElements]
      rw [elements_append_sep, elements_of_sepfree e (hfree e (List.mem_cons_self e _)),
        ih (by simp) h2]
      rfl

theorem joinElements_snoc (es : List GoString) (e : GoString) (hne : es ≠ []) :
    joinElements (es ++ [e]) = joinElements es ++ Separator :: e := by
  induction es with
  | nil => exact absurd rfl hne
  | cons x rest ih =>
    cases rest with
    | nil => simp [joinElements]
    | cons y rest2 =>
      have := ih (by simp)
      simp only [List.cons_append] at this ⊢
      simp only [joinElements, this, List.append_assoc, List.cons_append]

theorem cleanStep_real (rooted : Bool) (out : List GoString) (e : GoString)
    (h1 : e ≠ []) (h2 : e ≠ [dot]) (h3 : e ≠ [dot, dot]) :
    cleanStep rooted out e = e :: out := by
  simp [cleanStep, h1, h2, h3]

theorem cleanStep_skip (rooted : Bool) (out : List GoString) (e : GoString)
    (h : e = [] ∨ e = [dot]) : cleanStep rooted out e = out := by
  simp [cleanStep, h]

theorem cleanOut_cleanStep (rooted : Bool) (out : List GoString) (e : GoString)
    (hout : CleanOut rooted out) (he : Separator ∉ e) :
    CleanOut rooted (cleanStep rooted out e) := by
  by_cases h1 : e = [] ∨ e = [dot]
  · rw [cleanStep_skip rooted out e h1]
    exact hout
  · have hne : e ≠ [] := fun h => h1 (Or.inl h)
    have hnd : e ≠ [dot] := fun h => h1 (Or.inr h)
    by_cases h2 : e = [dot, dot]
    · subst h2
      cases out with
      | nil =>
        cases rooted with
        | true => simp [cleanStep, CleanOut]
        | false =>
          simp only [cleanStep, Bool.false_eq_true, if_false]
          exact ⟨trivial, hne, hnd, he, fun _ => ⟨rfl, by simp⟩⟩
      | cons top rest =>
        by_cases ht : top = [dot, dot]
        · have hr : rooted = false := (hout.2.2.2.2 ht).1
          simp only [cleanStep, ht, if_true]
          refine ⟨?_, hne, hnd, he, fun _ => ⟨hr, by simp⟩⟩
          rw [← ht]
          exact hout
        · have : cleanStep rooted (top :: rest) [dot, dot] = rest := by
            simp [cleanStep, ht]
          rw [this]
          exact hout.1
    · rw [cleanStep_real rooted out e hne hnd h2]
      exact ⟨hout, hne, hnd, he, fun h => absurd h h2⟩

theorem cleanOut_foldl (rooted : Bool) (es : List GoString) (out : List GoString)
    (hout : CleanOut rooted out) (hes : ∀ e ∈ es, Separator ∉ e) :
    CleanOut rooted (es.foldl (cleanStep rooted) out) := by
  induction es generalizing out with
  | nil => exact hout
  | cons e rest ih =>
    exact ih _ (cleanOut_cleanStep rooted out e hout (hes e (List.mem_cons_self e rest)))
      (fun x hx => hes x (List.mem_cons_of_mem e hx))

theorem cleanOut_sepfree (rooted : Bool) (out : List GoString) (hout : CleanOut rooted out) :
    ∀ e ∈ out, Separator ∉ e ∧ e ≠ [] := by
  induction out with
  | nil => simp
  | cons x rest ih =>
    intro e he
    rcases List.mem_cons.mp he with rfl | he
    · exact ⟨hout.2.2.2.1, hout.2.1⟩
    · exact ih hout.1 e he

/-- Reading back the elements `Clean` wrote gives the same elements. -/
theorem foldl_cleanStep_reverse (rooted : Bool) (out : List GoString)
    (hout : CleanOut rooted out) :
    out.reverse.foldl (cleanStep rooted) [] = out := by
  induction out with
  | nil => rfl
  | cons e rest ih =>
    rw [List.reverse_cons, List.foldl_append, ih hout.1]
    simp only [List.foldl_cons, List.foldl_nil]
    obtain ⟨_, hne, hnd, _, hdd⟩ := hout
    by_cases h2 : e = [dot, dot]
    · obtain ⟨hr, htop⟩ := hdd h2
      subst h2
      cases rest with
      | nil => simp [cleanStep, hr]
      | cons top rest2 =>
        have ht : top = [dot, dot] := htop top (by simp)
        simp [cleanStep, ht]
    · exact cleanStep_real rooted rest e hne hnd h2

theorem joinElements_head (b : UInt8) (bs : GoString) (rest : List GoString) :
    ∃ tl, joinElements ((b :: bs) :: rest) = b :: tl := by
  cases rest with
  | nil => exact ⟨bs, rfl⟩
  | cons e es => exact ⟨_, rfl⟩

/-- The text of a non-empty list of written elements starts with a byte that is no separator. -/
theorem joinElements_reverse_head (rooted : Bool) (out : List GoString)
    (hout : CleanOut rooted out) (hne : out ≠ []) :
    ∃ b tl, b ≠ Separator ∧ joinElements out.reverse = b :: tl := by
  have hrev : out.reverse ≠ [] := by simpa using hne
  cases hr : out.reverse with
  | nil => exact absurd hr hrev
  | cons e rest =>
    have hmem : e ∈ out := by
      have : e ∈ out.reverse := by rw [hr]; exact List.mem_cons_self e rest
      simpa using this
    obtain ⟨hfree, hnonempty⟩ := cleanOut_sepfree rooted out hout e hmem
    cases e with
    | nil => exact absurd rfl hnonempty
    | cons b bs =>
      obtain ⟨tl, htl⟩ := joinElements_head b bs rest
      exact ⟨b, tl, fun hb => hfree (hb ▸ List.mem_cons_self b bs), htl⟩

theorem isRooted_append (q rest : GoString) (hq : q ≠ []) :
    isRooted (q ++ rest) = isRooted q := by
  cases q with
  | nil => exact absurd rfl hq
  | cons b bs => rfl

/-- Cleaning a cleaned path changes nothing. -/
theorem Clean_renderPath (rooted : Bool) (out : List GoString) (hout : CleanOut rooted out) :
    Clean (renderPath rooted out) = renderPath rooted out := by
  have hfree : ∀ e ∈ out.reverse, Separator ∉ e :=
    fun e he => (cleanOut_sepfree rooted out hout e (by simpa using he)).1
  cases rooted with
  | true =>
    have hrender : renderPath true out = Separator :: joinElements out.reverse := by
      simp [renderPath]
    rw [hrender]
    have hroot : isRooted (Separator :: joinElements out.reverse) = true := by
      simp [isRooted]
    simp only [Clean, hroot, elements_cons, if_true, List.foldl_cons]
    rw [cleanStep_skip true [] [] (Or.inl rfl)]
    by_cases hne : out = []
    · subst hne
      simp [joinElements, elements, cleanStep, renderPath]
    · rw [elements_joinElements _ (by simpa using hne) hfree,
        foldl_cleanStep_reverse true out hout]
      simp [renderPath]
  | false =>
    by_cases hne : out = []
    · subst hne
      decide
    · obtain ⟨b, tl, hb, hjoin⟩ := joinElements_reverse_head false out hout hne
      have hrender : renderPath false out = joinElements out.reverse := by
        simp [renderPath, hne]
      rw [hrender]
      have hroot : isRooted (joinElements out.reverse) = false := by
        rw [hjoin]
        simpa [isRooted] using hb
      have hnil : joinElements out.reverse ≠ [] := by rw [hjoin]; simp
      simp only [Clean, hnil, if_false, hroot]
      rw [elements_joinElements _ (by simpa using hne) hfree,
        foldl_cleanStep_reverse false out hout, hrender]

/-- A trailing separator does not change the cleaned path. -/
theorem Clean_append_sep (q : GoString) (hq : q ≠ []) :
    Clean (q ++ [Separator]) = Clean q := by
  have hne : q ++ [Separator] ≠ [] := by simp
  simp only [Clean, hne, hq, if_false, isRooted_append q _ hq]
  rw [elements_append_sep q [], List.foldl_append]
  simp [elements, cleanStep]

/-- The cleaned directory and the joined path are written from the same
elements, the joined path with the file name on top. -/
theorem Clean_and_Join (t name : GoString) (h0 : name ≠ []) (h1 : name ≠ [dot])
    (h2 : name ≠ [dot, dot]) (hfree : Separator ∉ name) :
    ∃ rooted out, CleanOut rooted out ∧ Clean t = renderPath rooted out
      ∧ Join t name = renderPath rooted (name :: out) := by
  by_cases ht : t = []
  · subst ht
    refine ⟨false, [], trivial, by decide, ?_⟩
    have hroot : isRooted name = false := by
      cases name with
      | nil => exact absurd rfl h0
      | cons b bs =>
        have hb : b ≠ Separator := fun hb => hfree (hb ▸ List.mem_cons_self b bs)
        simpa [isRooted] using hb
    simp only [Join, ne_eq, not_true_eq_false, if_false, h0, not_false_eq_true, if_true, Clean,
      hroot]
    rw [elements_of_sepfree name hfree]
    simp [cleanStep_real false [] name h0 h1 h2]
  · refine ⟨isRooted t, (elements t).foldl (cleanStep (isRooted t)) [],
      cleanOut_foldl _ _ _ trivial (elements_sepfree t), by simp [Clean, ht], ?_⟩
    have hne : t ++ Separator :: name ≠ [] := by simp
    simp only [Join, ne_eq, ht, not_false_eq_true, if_true, Clean, hne, if_false,
      isRooted_append t _ ht]
    rw [elements_append_sep, elements_of_sepfree name hfree, List.foldl_append]
    simp [cleanStep_real _ _ name h0 h1 h2]

/-- The text of a path whose last element is `name`: what precedes the name is
empty or ends with a separator. -/
theorem renderPath_cons (rooted : Bool) (out : List GoString) (name : GoString) :
    renderPath rooted (name :: out)
      = (if out = [] then (if rooted then [Separator] else [])
          else renderPath rooted out ++ [Separator]) ++ name := by
  by_cases hne : out = []
  · subst hne
    cases rooted <;> simp [renderPath, joinElements]
  · have hrev : out.reverse ≠ [] := by simpa using hne
    cases rooted <;>
      simp [renderPath, hne, joinElements_snoc _ name hrev]

theorem Base_append (front name : GoString) (h0 : name ≠ []) (hfree : Separator ∉ name)
    (hfront : front = [] ∨ ∃ q, front = q ++ [Separator]) :
    Base (front ++ name) = name := by
  have hall : ∀ b ∈ name.reverse, (b != Separator) = true := by
    intro b hb
    have hb : b ∈ name := by simpa using hb
    simpa using fun h : b = Separator => hfree (h ▸ hb)
  have hstrip : (front ++ name).reverse.dropWhile (fun b => b == Separator)
      = (front ++ name).reverse := by
    rw [List.reverse_append]
    cases hn : name.reverse with
    | nil => exact absurd (by simpa using hn) h0
    | cons c cs =>
      have hc : (c != Separator) = true := hall c (by rw [hn]; exact List.mem_cons_self c cs)
      have hc : ¬ ((c == Separator) = true) := by simpa using hc
      simp [List.dropWhile, hc]
  have hlast : (front ++ name).reverse.takeWhile (fun b => b != Separator) = name.reverse := by
    rw [List.reverse_append, List.takeWhile_append_of_pos hall]
    rcases hfront with rfl | ⟨q, rfl⟩
    · simp
    · simp [List.takeWhile]
  have hne : front ++ name ≠ [] := by simp [h0]
  simp only [Base, hne, if_false, hstrip, List.reverse_reverse, hlast]
  simp [h0]

theorem dirPart_append (front name : GoString) (hfree : Separator ∉ name)
    (hfront : front = [] ∨ ∃ q, front = q ++ [Separator]) :
    dirPart (front ++ name) = front := by
  have hall : ∀ b ∈ name.reverse, (b != Separator) = true := by
    intro b hb
    have hb : b ∈ name := by simpa using hb
    simpa using fun h : b = Separator => hfree (h ▸ hb)
  simp only [dirPart]
  rw [List.reverse_append, List.dropWhile_append_of_pos hall]
  rcases hfront with rfl | ⟨q, rfl⟩
  · simp
  · simp [List.dropWhile]

/-- The model of `filepath.Clean` on the cases of the Go documentation and test table. -/
theorem Clean_examples :
    Clean (utf8 "") = utf8 "." ∧ Clean (utf8 "abc") = utf8 "abc"
    ∧ Clean (utf8 "/") = utf8 "/" ∧ Clean (utf8 "abc/") = utf8 "abc"
    ∧ Clean (utf8 "../../abc") = utf8 "../../abc" ∧ Clean (utf8 "./") = utf8 "."
    ∧ Clean (utf8 "abc//def//ghi") = utf8 "abc/def/ghi" ∧ Clean (utf8 "//abc//") = utf8 "/abc"
    ∧ Clean (utf8 "abc/./def") = utf8 "abc/def" ∧ Clean (utf8 "abc/def/../..") = utf8 "."
    ∧ Clean (utf8 "/abc/def/../../..") = utf8 "/" ∧ Clean (utf8 "abc/def/../../..") = utf8 ".."
    ∧ Clean (utf8 "abc/def/../../../ghi/jkl/../../../mno") = utf8 "../../mno"
    ∧ Clean (utf8 "/../abc") = utf8 "/abc" ∧ Clean (utf8 "abc/../../././../def") = utf8 "../../def"
    ∧ Join (utf8 "a") (utf8 "b/c") = utf8 "a/b/c" ∧ Join (utf8 "a/b") (utf8 "../../../xyz") = utf8 "../xyz"
    ∧ Dir (utf8 "/foo/bar/baz.js") = utf8 "/foo/bar" ∧ Dir (utf8 "dev.txt") = utf8 "."
    ∧ Dir (utf8 "/dirty//path///") = utf8 "/dirty/path" ∧ Dir (utf8 "../todo.txt") = utf8 ".."
    ∧ Base (utf8 "/foo/bar/baz.js") = utf8 "baz.js" ∧ Base (utf8 "/foo/bar/baz/") = utf8 "baz"
    ∧ Base (utf8 "////") = utf8 "/" ∧ Base (utf8 "") = utf8 "." := by
  decide

theorem excelFileName_real (d : GoString) (hd : Separator ∉ d) :
    excelFileName d ≠ [] ∧ excelFileName d ≠ [dot] ∧ excelFileName d ≠ [dot, dot]
      ∧ Separator ∉ excelFileName d := by
  have hhead : utf8 "result_" = [114, 101, 115, 117, 108, 116, 95] := by decide
  have htail : utf8 ".xlsx" = [46, 120, 108, 115, 120] := by decide
  simp only [excelFileName, hhead, htail]
  refine ⟨by simp, by simp, by simp, ?_⟩
  intro hmem
  simp only [List.mem_append, List.mem_cons, List.mem_singleton, List.not_mem_nil, or_false,
    List.cons_append, List.nil_append] at hmem
  rcases hmem with h | h | h | h | h | h | h | h | h | h | h | h | h
  all_goals first
    | exact hd h
    | exact absurd h (by decide)

/-- The model of the driver's reading of a data source name, on names of the
driver's documentation and tests, and on the name of a database `a/../../home/b`
given alone, which the driver rejects. -/
theorem splitDSN_examples :
    splitDSN (utf8 "u:p@tcp(localhost)/shop")
      = some ⟨utf8 "u", utf8 "p", utf8 "tcp", utf8 "localhost", utf8 "shop", []⟩
    ∧ splitDSN (utf8 "user@unix(/path/to/socket)/dbname?charset=utf8")
      = some ⟨utf8 "user", [], utf8 "unix", utf8 "/path/to/socket", utf8 "dbname",
          utf8 "charset=utf8"⟩
    ∧ splitDSN (utf8 "user:p@ss(word)@tcp([de:ad:be:ef::ca:fe]:80)/dbname")
      = some ⟨utf8 "user", utf8 "p@ss(word)", utf8 "tcp", utf8 "[de:ad:be:ef::ca:fe]:80",
          utf8 "dbname", []⟩
    ∧ splitDSN (utf8 "/") = some ⟨[], [], [], [], [], []⟩
    ∧ splitDSN (utf8 "u:p@tcp(localhost)") = none
    ∧ splitDSN (utf8 "u:p@tcp(localhost)/a/../../home/b") = none := by
  decide

/-- The path of the temporary file for a database name without separator: its
base name is the file name and its directory is the cleaned temporary directory. -/
theorem tempFilePath_inside (t d : GoString) (hd : Separator ∉ d) :
    Base (tempFilePath t d) = utf8 "result_" ++ d ++ utf8 ".xlsx"
    ∧ Dir (tempFilePath t d) = Clean t := by
  obtain ⟨h0, h1, h2, hfree⟩ := excelFileName_real d hd
  obtain ⟨rooted, out, hout, hclean, hjoin⟩ := Clean_and_Join t (excelFileName d) h0 h1 h2 hfree
  have hfront : (if out = [] then (if rooted then [Separator] else [])
      else renderPath rooted out ++ [Separator]) = []
      ∨ ∃ q, (if out = [] then (if rooted then [Separator] else [])
          else renderPath rooted out ++ [Separator]) = q ++ [Separator] := by
    by_cases hne : out = []
    · cases rooted
      · exact Or.inl (by simp [hne])
      · exact Or.inr ⟨[], by simp [hne]⟩
    · exact Or.inr ⟨renderPath rooted out, by simp [hne]⟩
  simp only [tempFilePath, Dir]
  rw [hjoin, renderPath_cons, Base_append _ _ h0 hfree hfront, dirPart_append _ _ hfree hfront,
    hclean]
  refine ⟨rfl, ?_⟩
  by_cases hne : out = []
  · subst hne
    cases rooted <;> decide
  · have hnil : renderPath rooted out ≠ [] := by
      cases rooted with
      | true => simp [renderPath]
      | false =>
        obtain ⟨b, tl, _, hj⟩ := joinElements_reverse_head false out hout hne
        simp [renderPath, hne, hj]
    simp only [hne, if_false]
    rw [Clean_append_sep _ hnil, Clean_renderPath rooted out hout]

/-- C9 (as stated) fails when the database name contains separators and `..`
elements. Take the example request with the database name
`a/../../home/b@tcp(db.example.com:3306)/shop` and the temporary directory
`/tmp`. The driver accepts the data source name (it reads the server
`db.example.com:3306` and the database `shop` from it), so with the connection
and the query succeeding the run reaches the save step, and `file.Save` is
called on `/home/b@tcp(db.example.com:3306)/shop.xlsx`: the directory of that
path is not `/tmp` and its base name is `shop.xlsx`, not "result_" followed by
the database name and ".xlsx". This holds whether `file.Save` fails to create
the file there or writes it. -/
theorem db_name_escapes_temp_dir :
    splitDSN (dsnOf ⟨utf8 "u", utf8 "p", utf8 "localhost", escapingName,
        utf8 "SELECT id, price FROM items"⟩)
      = some ⟨utf8 "u", utf8 "p@tcp(localhost)/a/../../home/b", utf8 "tcp",
          utf8 "db.example.com:3306", utf8 "shop", []⟩
    ∧ GenerateExcel (envEscaping .createFailed) []
      = ⟨[], [.sqlOpen (utf8 "mysql")
                (utf8 "u:p@tcp(localhost)/a/../../home/b@tcp(db.example.com:3306)/shop"),
              .dbQuery (utf8 "SELECT id, price FROM items"),
              .fileSave (utf8 "/home/b@tcp(db.example.com:3306)/shop.xlsx") exampleDoc
                .createFailed,
              .cJSON 500 (utf8 "error") (utf8 "Failed to save Excel file"),
              .rowsClose, .dbClose]⟩
    ∧ Event.fileSave (utf8 "/home/b@tcp(db.example.com:3306)/shop.xlsx") exampleDoc .saved
        ∈ (GenerateExcel (envEscaping .saved) []).log
    ∧ Dir (utf8 "/home/b@tcp(db.example.com:3306)/shop.xlsx")
        = utf8 "/home/b@tcp(db.example.com:3306)"
    ∧ Dir (utf8 "/home/b@tcp(db.example.com:3306)/shop.xlsx") ≠ Clean (utf8 "/tmp")
    ∧ Base (utf8 "/home/b@tcp(db.example.com:3306)/shop.xlsx") = utf8 "shop.xlsx"
    ∧ Base (utf8 "/home/b@tcp(db.example.com:3306)/shop.xlsx")
        ≠ utf8 "result_" ++ escapingName ++ utf8 ".xlsx" := by
  decide

/-- C9 (amended): in every run whose request binds with a database name `d`
that contains no path separator, every call of `file.Save` is on the path
`filepath.Join(os.TempDir(), "result_" ++ d ++ ".xlsx")`, whose base name is
"result_" ++ d ++ ".xlsx" and whose directory is the temporary directory:
`filepath.Dir` of it is `filepath.Clean(os.TempDir())`, which is `os.TempDir()`
itself when that is already clean. -/
theorem temp_file_inside_temp_dir (env : Env) (fs : FS) (requestBody : RequestBody)
    (hbind : BindJSON env.body = some requestBody)
    (hd : Separator ∉ requestBody.DBName) :
    (∀ (path : GoString) (doc : XlsxFile) (result : SaveResult),
        Event.fileSave path doc result ∈ (GenerateExcel env fs).log →
          path = tempFilePath env.tempDir requestBody.DBName
          ∧ Base path = utf8 "result_" ++ requestBody.DBName ++ utf8 ".xlsx"
          ∧ Dir path = Clean env.tempDir)
    ∧ Base (tempFilePath env.tempDir requestBody.DBName)
        = utf8 "result_" ++ requestBody.DBName ++ utf8 ".xlsx"
    ∧ Dir (tempFilePath env.tempDir requestBody.DBName) = Clean env.tempDir
    ∧ (Clean env.tempDir = env.tempDir →
        Dir (tempFilePath env.tempDir requestBody.DBName) = env.tempDir) := by
  obtain ⟨hbase, hdir⟩ := tempFilePath_inside env.tempDir requestBody.DBName hd
  refine ⟨?_, hbase, hdir, fun ht => hdir.trans ht⟩
  intro path doc result hmem
  have hpath : path = tempFilePath env.tempDir requestBody.DBName :=
    log_expected env fs requestBody hbind _ hmem
  subst hpath
  exact ⟨rfl, hbase, hdir⟩

/-- C9 (amended) at the example of the specification: the file is saved at
`/tmp/result_shop.xlsx`. -/
theorem temp_file_inside_temp_dir_witness :
    Separator ∉ exampleRequest.DBName
    ∧ Event.fileSave (utf8 "/tmp/result_shop.xlsx") exampleDoc .saved
        ∈ (GenerateExcel exampleEnv []).log
    ∧ (∀ (path : GoString) (doc : XlsxFile) (result : SaveResult),
        Event.fileSave path doc result ∈ (GenerateExcel exampleEnv []).log →
          path = tempFilePath (utf8 "/tmp") (utf8 "shop")
          ∧ Base path = utf8 "result_" ++ utf8 "shop" ++ utf8 ".xlsx"
          ∧ Dir path = Clean (utf8 "/tmp"))
    ∧ Base (tempFilePath (utf8 "/tmp") (utf8 "shop"))
        = utf8 "result_" ++ utf8 "shop" ++ utf8 ".xlsx"
    ∧ Dir (tempFilePath (utf8 "/tmp") (utf8 "shop")) = Clean (utf8 "/tmp")
    ∧ (Clean (utf8 "/tmp") = utf8 "/tmp" →
        Dir (tempFilePath (utf8 "/tmp") (utf8 "shop")) = utf8 "/tmp") :=
  ⟨by decide, by decide,
    temp_file_inside_temp_dir exampleEnv [] exampleRequest (by decide) (by decide)⟩

end ReportMaker

